import Mathlib

/-!
Verification of the Pascal-S front-end (lexer / parser / semantic analyzer).

Shallow embedding of the Python sources:
  src/syntax/token.py, src/automaton/dfa/dfa.py, src/text/reader.py,
  src/io/position.py, src/lexer/lexer.py, src/lexer/negative_number.py,
  src/lexer/char_literal.py, src/lexer/hyphenated_keywords.py,
  src/semantic/types.py, src/semantic/symbol_table.py, src/semantic/visitor.py,
  src/parser/parser.py.

Python strings are embedded as `List Char` (`Str`); dictionaries as
association lists in insertion order; exceptions as `Except`; `while` loops
as fuel-indexed structural recursions (the fuel models the loop variant and
is proven sufficient where a claim needs termination).
-/

namespace PascalS

/-- Python `str`, embedded as a list of characters. -/
abbrev Str := List Char

/-- TokenType enumeration, src/syntax/token.py. -/
inductive TokenType where
  | KEYWORD | IDENTIFIER | NUMBER | STRING_LITERAL | CHAR_LITERAL
  | ARITHMETIC_OPERATOR | RELATIONAL_OPERATOR | LOGICAL_OPERATOR | ASSIGN_OPERATOR
  | SEMICOLON | COMMA | COLON | DOT | LPARENTHESIS | RPARENTHESIS
  | LBRACKET | RBRACKET | RANGE_OPERATOR | COMMENT | WHITESPACE | UNKNOWN
deriving DecidableEq, Repr

/-- Token dataclass, src/syntax/token.py: {type, value, start, end}. -/
structure Token where
  type : TokenType
  value : Str
  start : Nat
  «end» : Nat
deriving DecidableEq, Repr

/-- str.lower() over the character-list embedding of Python strings. -/
def lower (s : Str) : Str := s.map Char.toLower

/-- DFA, src/automaton/dfa/dfa.py.  `final_states` is embedded with the
token kinds already decoded (the Python code stores token-kind names and
decodes them with `TokenType[name]`; a valid configuration is assumed).
`char_classes` embeds each compiled `re.Pattern` as the character predicate
it denotes.  `transitions` is the items list, in insertion order, of the
dict built from the configuration's transition triples. -/
structure DFA where
  start_state : String
  final_states : List (String × TokenType)
  char_classes : List (String × (Char → Bool))
  transitions : List ((String × String) × String)

/-- Whether `input_sym` names a character class whose pattern matches `char`
(the `input_sym in self.char_class_patterns and ...match(char)` test). -/
def DFA.matchesClass (d : DFA) (input_sym : String) (char : Char) : Bool :=
  match d.char_classes.lookup input_sym with
  | some pat => pat char
  | none => false

/-- DFA.step, src/automaton/dfa/dfa.py lines 45-57, with the mutable
`current_state` passed explicitly: exact literal transition first, then the
first transition (in dict iteration order) from this state through a
matching character class; `none` when no transition applies. -/
def DFA.step (d : DFA) (current_state : String) (char : Char) : Option String :=
  match d.transitions.lookup (current_state, char.toString) with
  | some next_state => some next_state
  | none =>
    match d.transitions.find? (fun tr => tr.1.1 == current_state && d.matchesClass tr.1.2 char) with
    | some tr => some tr.2
    | none => none

/-- The state after `step`: Python mutates `self.current_state` only inside
the branches that return a new state, so a `none` result leaves it unchanged. -/
def DFA.step_state (d : DFA) (current_state : String) (char : Char) : String :=
  (d.step current_state char).getD current_state

/-- DFA.can_transition, src/automaton/dfa/dfa.py lines 62-72: the same
lookup as `step` but without mutation (it only reads `transitions`). -/
def DFA.can_transition (d : DFA) (current_state : String) (char : Char) : Bool :=
  (d.transitions.lookup (current_state, char.toString)).isSome ||
    d.transitions.any (fun tr => tr.1.1 == current_state && d.matchesClass tr.1.2 char)

/-- DFA.get_token_type, src/automaton/dfa/dfa.py lines 59-60. -/
def DFA.get_token_type (d : DFA) (current_state : String) : Option TokenType :=
  d.final_states.lookup current_state

/-- Position dataclass, src/io/position.py: {index, line, column}. -/
structure Position where
  index : Nat
  line : Nat
  column : Nat
deriving DecidableEq, Repr

/-- Position.advance: newline resets column to 1 and bumps the line. -/
def Position.advance (p : Position) (current_char : Char) : Position :=
  if current_char = '\n' then ⟨p.index + 1, p.line + 1, 1⟩
  else ⟨p.index + 1, p.line, p.column + 1⟩

/-- Reader, src/text/reader.py: source text plus a Position.  The Python
class caches `current_char`; the cache always equals `text[pos.index]`
(or None at end), so it is embedded as the derived function below. -/
structure Reader where
  text : Str
  pos : Position
deriving Repr

/-- The cached `current_char` field of Reader. -/
def Reader.current_char (r : Reader) : Option Char :=
  r.text.get? r.pos.index

/-- Reader.eof, src/text/reader.py lines 43-44. -/
def Reader.eof (r : Reader) : Bool :=
  r.current_char.isNone

/-- Reader.advance, src/text/reader.py lines 20-28. -/
def Reader.advance (r : Reader) : Reader :=
  match r.current_char with
  | none => r
  | some c => ⟨r.text, r.pos.advance c⟩

/-- index_to_line_col, src/utils/error_context.py lines 26-44: recompute a
1-based (line, column) pair from a clamped 0-based index. -/
def index_to_line_col (source : Str) (index : Nat) : Nat × Nat :=
  (source.take (min index source.length)).foldl
    (fun lc c => if c = '\n' then (lc.1 + 1, 1) else (lc.1, lc.2 + 1)) (1, 1)

/-- Modelled from the spec: `Reader.set_position` is called by
`Lexer.tokenize` (src/lexer/lexer.py line 78) and documented by
src/utils/error_context.py line 29 ("Mirrors Reader.set_position logic"),
but its definition is absent from src/text/reader.py.  Per the spec
(CharacterReader exposes "positional seeking"; the lexer "un-consumes ...
by resetting the reader's position to the end of the accepted lexeme"),
it repositions the reader at the given character index, recomputing the
line/column exactly as index_to_line_col does. -/
def Reader.set_position (r : Reader) (index : Nat) : Reader :=
  let idx := min index r.text.length
  let lc := index_to_line_col r.text idx
  ⟨r.text, ⟨idx, lc.1, lc.2⟩⟩

/-- Lexer, src/lexer/lexer.py: the DFA plus the keyword set and the
reserved-word map of its configuration (reserved-map token kinds decoded,
as for final_states). -/
structure Lexer where
  dfa : DFA
  keywords : List Str
  reserved_map : List (Str × TokenType)

/-- Keyword / reserved-word reclassification of an accepted lexeme,
src/lexer/lexer.py lines 59-66. -/
def Lexer.classify (lx : Lexer) (last_accepted_state : String) (accepted_lexeme : Str) :
    TokenType :=
  let token_type := (lx.dfa.final_states.lookup last_accepted_state).getD .UNKNOWN
  if token_type = .IDENTIFIER ∧ (lx.reserved_map.lookup (lower accepted_lexeme)).isSome then
    (lx.reserved_map.lookup (lower accepted_lexeme)).getD token_type
  else if token_type = .IDENTIFIER ∧ lower accepted_lexeme ∈ lx.keywords then
    .KEYWORD
  else
    token_type

/-- The inner scanning loop of Lexer.tokenize, src/lexer/lexer.py lines
49-56, over the unread suffix of the source.  `i` is `reader.pos.index`
(the absolute index of the head of `remaining`), `lexeme` the characters
consumed so far for this token, and the accumulator holds
(last_accepted_state, accepted_lexeme, accepted_pos) — accepted_pos being
the reader index just after the last character of the accepted lexeme.
Returns the reader index where scanning stopped and the final accumulator. -/
def scanProbe (lx : Lexer) :
    Str → String → Str → Nat → Option (String × Str × Nat) →
    Nat × Option (String × Str × Nat)
  | [], _, _, i, acc => (i, acc)
  | c :: rest, state, lexeme, i, acc =>
    if lx.dfa.can_transition state c then
      let lexeme' := lexeme ++ [c]
      let state' := lx.dfa.step_state state c
      let acc' := if (lx.dfa.get_token_type state').isSome then some (state', lexeme', i + 1)
                  else acc
      scanProbe lx rest state' lexeme' (i + 1) acc'
    else
      (i, acc)

/-- The outer `while not reader.eof()` loop of Lexer.tokenize,
src/lexer/lexer.py lines 41-90, with the reader represented by its
character index (line/column never influence the produced tokens).  The
fuel models the loop variant (the index strictly increases every
iteration); `none` means the fuel ran out, which scanOuter_isSome below
rules out for the fuel tokenize supplies.  The Bool is true when the loop
ended without silently dropping a scanned-but-never-accepted trailing run
at end of input (when no lexeme was ever accepted and the probe stopped
before the end, Python emits the current character as an UNKNOWN token;
when the probe consumed up to the end, the loop just exits and the
consumed characters reach no token at all).  On a committed lexeme the
reader is repositioned to accepted_pos when it overshot — the
`reader.set_position(accepted_pos)` call on line 78, here `nextI`. -/
def scanOuter (lx : Lexer) (text : Str) : Nat → Nat → Option (List Token × Bool)
  | 0, _ => none
  | fuel + 1, i =>
    if i < text.length then
      match scanProbe lx (text.drop i) lx.dfa.start_state [] i none with
      | (endI, some (st, lexeme, accPos)) =>
        let tok : Token := ⟨lx.classify st lexeme, lexeme, i, i + lexeme.length⟩
        let nextI := if endI ≠ accPos then accPos else endI
        match scanOuter lx text fuel nextI with
        | some (ts, ok) => some (tok :: ts, ok)
        | none => none
      | (endI, none) =>
        match text.get? endI with
        | some c =>
          match scanOuter lx text fuel (endI + 1) with
          | some (ts, ok) => some (⟨.UNKNOWN, [c], endI, endI + 1⟩ :: ts, ok)
          | none => none
        | none => some ([], false)
    else
      some ([], true)

/-- The token list produced by the scanning phase of Lexer.tokenize
(before the post-processing passes), with the sufficient fuel. -/
def scanTokens (lx : Lexer) (text : Str) : List Token :=
  ((scanOuter lx text (text.length + 1) 0).getD ([], false)).1

/-- True when the scanning phase ended cleanly at end of input (it never
exited while holding scanned characters that reached no token). -/
def scanCompletedCleanly (lx : Lexer) (text : Str) : Bool :=
  ((scanOuter lx text (text.length + 1) 0).getD ([], false)).2

/-- Whitespace/comment test used by the token post-processing passes. -/
def isWsComment (t : Token) : Bool :=
  decide (t.type = .WHITESPACE ∨ t.type = .COMMENT)

/-- The unary-position test of merge_negative_numbers,
src/lexer/negative_number.py lines 29-57, over the reversed output
accumulated so far (head = most recently emitted token): scan back over
whitespace/comments; a minus is unary at stream start, after one of the
listed operator/punctuation kinds, or after one of the listed keywords. -/
def is_unary_context (res : List Token) : Bool :=
  match res.find? (fun t => ¬ isWsComment t) with
  | none => true
  | some prev_token => decide <|
    (prev_token.type = .ASSIGN_OPERATOR ∨ prev_token.type = .RELATIONAL_OPERATOR ∨
     prev_token.type = .ARITHMETIC_OPERATOR ∨ prev_token.type = .LOGICAL_OPERATOR ∨
     prev_token.type = .LPARENTHESIS ∨ prev_token.type = .LBRACKET ∨
     prev_token.type = .COMMA ∨ prev_token.type = .COLON ∨
     prev_token.type = .RANGE_OPERATOR) ∨
    (prev_token.type = .KEYWORD ∧
      (lower prev_token.value = "then".toList ∨ lower prev_token.value = "else".toList ∨
       lower prev_token.value = "do".toList ∨ lower prev_token.value = "of".toList ∨
       lower prev_token.value = "to".toList ∨ lower prev_token.value = "downto".toList))

/-- merge_negative_numbers, src/lexer/negative_number.py lines 5-77, as a
fuel-indexed recursion over the remaining input (`res` is the reversed
`result` list).  A unary `-` followed — skipping whitespace/comments — by a
NUMBER becomes one NUMBER token spanning from the minus's start to the
number's end; the skipped whitespace/comment tokens are dropped.  The Bool
records whether some merge skipped (dropped) such in-between tokens.  The
fuel models the loop variant (`i` strictly increases); with the fuel
merge_negative_numbers supplies it cannot run out. -/
def mergeNegAux : Nat → List Token → List Token → Bool → List Token × Bool
  | 0, toks, res, gap => (res.reverse ++ toks, gap)
  | _ + 1, [], res, gap => (res.reverse, gap)
  | fuel + 1, t :: rest, res, gap =>
    if isWsComment t then
      mergeNegAux fuel rest (t :: res) gap
    else if t.type = .ARITHMETIC_OPERATOR ∧ t.value = "-".toList then
      let between := rest.takeWhile isWsComment
      let after := rest.dropWhile isWsComment
      match after with
      | tj :: rest3 =>
        if tj.type = .NUMBER then
          if is_unary_context res then
            mergeNegAux fuel rest3
              (⟨.NUMBER, '-' :: tj.value, t.start, tj.«end»⟩ :: res)
              (gap || decide (between ≠ []))
          else
            mergeNegAux fuel rest (t :: res) gap
        else
          mergeNegAux fuel rest (t :: res) gap
      | [] =>
        mergeNegAux fuel rest (t :: res) gap
    else
      mergeNegAux fuel rest (t :: res) gap

/-- merge_negative_numbers, src/lexer/negative_number.py. -/
def merge_negative_numbers (tokens : List Token) : List Token :=
  (mergeNegAux (tokens.length + 1) tokens [] false).1

/-- Instrumentation: whether merge_negative_numbers performed a merge that
dropped whitespace/comment tokens standing between the `-` and its number. -/
def mergeDroppedTokens (tokens : List Token) : Bool :=
  (mergeNegAux (tokens.length + 1) tokens [] false).2

/-- fix_char_literals, src/lexer/char_literal.py lines 5-27: a
STRING_LITERAL whose raw text is exactly 3 characters (quote, char, quote)
becomes a CHAR_LITERAL; everything else passes through unchanged. -/
def fix_char_literals (tokens : List Token) : List Token :=
  tokens.map fun t =>
    if t.type = .STRING_LITERAL ∧ t.value.length = 3 then
      ⟨.CHAR_LITERAL, t.value, t.start, t.«end»⟩
    else t

/-- HYPHENATED_KEYWORDS, src/lexer/hyphenated_keywords.py lines 4-7. -/
def HYPHENATED_KEYWORDS : List Str := ["turun-ke".toList, "selain-itu".toList]

/-- merge_hyphenated_keywords, src/lexer/hyphenated_keywords.py lines
10-55: IDENTIFIER/KEYWORD, `-`, IDENTIFIER/KEYWORD spelling a recognized
compound keyword merge into one KEYWORD token spanning all three. -/
def merge_hyphenated_keywords : List Token → List Token
  | token1 :: token2 :: token3 :: rest =>
    if (token1.type = .IDENTIFIER ∨ token1.type = .KEYWORD) ∧
       token2.type = .ARITHMETIC_OPERATOR ∧ token2.value = "-".toList ∧
       (token3.type = .IDENTIFIER ∨ token3.type = .KEYWORD) ∧
       lower (token1.value ++ '-' :: token3.value) ∈ HYPHENATED_KEYWORDS then
      ⟨.KEYWORD, token1.value ++ '-' :: token3.value, token1.start, token3.«end»⟩ ::
        merge_hyphenated_keywords rest
    else
      token1 :: merge_hyphenated_keywords (token2 :: token3 :: rest)
  | tokens => tokens

/-- Lexer.tokenize, src/lexer/lexer.py lines 38-96: scan, then merge
negative numbers, then disambiguate char literals (the hyphenated-keyword
merge is not part of tokenize). -/
def Lexer.tokenize (lx : Lexer) (source_code : Str) : List Token :=
  fix_char_literals (merge_negative_numbers (scanTokens lx source_code))

/-- Concatenation of the value fields of a token list. -/
def concatValues (tokens : List Token) : Str :=
  tokens.foldr (fun t s => t.value ++ s) []

/-- SimpleTypeKind enumeration, src/semantic/types.py. -/
inductive SimpleTypeKind where
  | INTEGER | REAL | BOOLEAN | CHAR | STRING | VOID
deriving DecidableEq, Repr

mutual

/-- Type, src/semantic/types.py lines 33-37: a kind tag plus optional
array and record payloads (both default to None). -/
inductive Ty where
  | mk (kind : SimpleTypeKind) (array_info : Option ArrayTypeInfo)
       (record_info : Option RecordTypeInfo)

/-- ArrayTypeInfo dataclass, src/semantic/types.py lines 15-23. -/
inductive ArrayTypeInfo where
  | mk (index_type : Ty) (element_type : Ty) (low : Int) (high : Int)
       (element_size : Int) (size : Int) (ref_index : Option Nat)

/-- RecordTypeInfo dataclass, src/semantic/types.py lines 26-30: the
field dict as an association list name → (type, offset), in insertion
order, plus the total size. -/
inductive RecordTypeInfo where
  | mk (fields : List (Str × Ty × Int)) (size : Int)

end

def Ty.kind : Ty → SimpleTypeKind
  | .mk k _ _ => k

def Ty.array_info : Ty → Option ArrayTypeInfo
  | .mk _ a _ => a

def Ty.record_info : Ty → Option RecordTypeInfo
  | .mk _ _ r => r

def ArrayTypeInfo.index_type : ArrayTypeInfo → Ty
  | .mk it _ _ _ _ _ _ => it

def ArrayTypeInfo.element_type : ArrayTypeInfo → Ty
  | .mk _ et _ _ _ _ _ => et

def ArrayTypeInfo.low : ArrayTypeInfo → Int
  | .mk _ _ l _ _ _ _ => l

def ArrayTypeInfo.high : ArrayTypeInfo → Int
  | .mk _ _ _ h _ _ _ => h

def ArrayTypeInfo.element_size : ArrayTypeInfo → Int
  | .mk _ _ _ _ es _ _ => es

def ArrayTypeInfo.size : ArrayTypeInfo → Int
  | .mk _ _ _ _ _ s _ => s

def RecordTypeInfo.fields : RecordTypeInfo → List (Str × Ty × Int)
  | .mk fs _ => fs

def RecordTypeInfo.size : RecordTypeInfo → Int
  | .mk _ s => s

/-- Type.is_simple, src/semantic/types.py lines 39-40. -/
def Ty.is_simple (t : Ty) : Bool := t.array_info.isNone && t.record_info.isNone

/-- Type.is_array, src/semantic/types.py lines 42-43. -/
def Ty.is_array (t : Ty) : Bool := t.array_info.isSome

/-- Type.is_record, src/semantic/types.py lines 45-46. -/
def Ty.is_record (t : Ty) : Bool := t.record_info.isSome

/-- Type.is_numeric, src/semantic/types.py lines 48-49. -/
def Ty.is_numeric (t : Ty) : Bool :=
  decide (t.kind = .INTEGER ∨ t.kind = .REAL)

/-- Type.is_ordinal, src/semantic/types.py lines 51-52. -/
def Ty.is_ordinal (t : Ty) : Bool :=
  decide (t.kind = .INTEGER ∨ t.kind = .BOOLEAN ∨ t.kind = .CHAR)

/-- Type.compatible_with, src/semantic/types.py lines 54-64: equal kinds
are compatible when the type is simple, or when both are arrays with
compatible element types; otherwise (including two records) control falls
through to the one-directional REAL-accepts-INTEGER widening test. -/
def Ty.compatible_with : Ty → Ty → Bool
  | .mk k1 a1 r1, .mk k2 a2 _ =>
    if k1 = k2 ∧ a1.isNone ∧ r1.isNone then true
    else
      match a1, a2 with
      | some (.mk _ et1 _ _ _ _ _), some (.mk _ et2 _ _ _ _ _) =>
        if k1 = k2 then Ty.compatible_with et1 et2
        else decide (k1 = .REAL ∧ k2 = .INTEGER)
      | _, _ => decide (k1 = .REAL ∧ k2 = .INTEGER)

/-- Type.__eq__, src/semantic/types.py lines 66-69: equality between two
Type objects compares only the kind tags. -/
def Ty.py_eq (t other : Ty) : Bool :=
  decide (t.kind = other.kind)

/-- Type.__repr__, src/semantic/types.py lines 71-76. -/
def Ty.reprStr : Ty → String
  | .mk k a r =>
    match a with
    | some (.mk _ et _ _ _ _ _) => "array of " ++ Ty.reprStr et
    | none =>
      match r with
      | some _ => "record"
      | none =>
        match k with
        | .INTEGER => "integer"
        | .REAL => "real"
        | .BOOLEAN => "boolean"
        | .CHAR => "char"
        | .STRING => "string"
        | .VOID => "void"

/-- The module-level singletons of src/semantic/types.py lines 79-84. -/
def INTEGER_TYPE : Ty := .mk .INTEGER none none

def REAL_TYPE : Ty := .mk .REAL none none

def BOOLEAN_TYPE : Ty := .mk .BOOLEAN none none

def CHAR_TYPE : Ty := .mk .CHAR none none

def STRING_TYPE : Ty := .mk .STRING none none

def VOID_TYPE : Ty := .mk .VOID none none

/-- ObjectKind enumeration, src/semantic/symbol_table.py lines 6-13. -/
inductive ObjectKind where
  | CONSTANT | VARIABLE | TYPE | PROCEDURE | FUNCTION | PROGRAM | FIELD
deriving DecidableEq, Repr

/-- SymbolEntry, src/semantic/symbol_table.py lines 16-27. -/
structure SymbolEntry where
  name : Str
  obj_kind : ObjectKind
  type : Ty
  level : Nat
  address : Nat
  ref : Nat
  normal : Bool
  link : Nat

/-- BlockEntry, src/semantic/symbol_table.py lines 41-46. -/
structure BlockEntry where
  last : Nat
  lpar : Nat
  psze : Nat
  vsze : Nat
deriving DecidableEq, Repr

/-- SymbolTable, src/semantic/symbol_table.py lines 49-59 (the array
side-table `atab`/`ax`, untouched by the operations below, is omitted).
`tx` starts at -1 and is the index of the last `tab` entry. -/
structure SymbolTable where
  tab : List SymbolEntry
  btab : List BlockEntry
  tx : Int
  bx : Nat
  level : Nat
  display : List Nat
  dx : Nat

/-- The freshly constructed SymbolTable. -/
def SymbolTable.init : SymbolTable :=
  ⟨[], [⟨0, 0, 0, 0⟩], -1, 0, 0, List.replicate 10 0, 0⟩

/-- SymbolTable.enter, src/semantic/symbol_table.py lines 61-98, returning
the updated table and the new entry's index (`self.tx`, non-negative in
every reachable state).  Out-of-range accesses, which would raise in
Python and cannot occur in reachable states, read defaults.  A VARIABLE
links to the block's previous entry only when that entry is itself a
VARIABLE, a FIELD only when it is a VARIABLE or FIELD; otherwise the link
is 0.  An auto-addressed VARIABLE takes the running `dx` counter and
bumps the block's variable size. -/
def SymbolTable.enter (st : SymbolTable) (name : Str) (obj_kind : ObjectKind) (type : Ty)
    (level : Option Nat) (ref : Nat) (normal : Bool) (address : Option Nat) :
    SymbolTable × Nat :=
  let tx' : Int := st.tx + 1
  let idx : Nat := tx'.toNat
  let lvl := level.getD st.level
  let block_idx := st.display.getD lvl 0
  let lastBlock := (st.btab.get? block_idx).getD ⟨0, 0, 0, 0⟩
  let last_idx := lastBlock.last
  let lastKind : Option ObjectKind := (st.tab.get? last_idx).map (·.obj_kind)
  let link : Nat :=
    if obj_kind = .VARIABLE then
      if last_idx ≠ 0 ∧ lastKind = some .VARIABLE then last_idx else 0
    else if obj_kind = .FIELD then
      if last_idx ≠ 0 ∧ (lastKind = some .VARIABLE ∨ lastKind = some .FIELD) then last_idx
      else 0
    else last_idx
  let addr : Nat :=
    if obj_kind = .VARIABLE then address.getD st.dx
    else address.getD 0
  let dx' : Nat :=
    if obj_kind = .VARIABLE ∧ address = none then st.dx + 1 else st.dx
  let vsze' : Nat :=
    if obj_kind = .VARIABLE then lastBlock.vsze + 1 else lastBlock.vsze
  let btab' := st.btab.set block_idx ⟨idx, lastBlock.lpar, lastBlock.psze, vsze'⟩
  let entry : SymbolEntry := ⟨name, obj_kind, type, lvl, addr, ref, normal, link⟩
  ({ st with tab := st.tab ++ [entry], btab := btab', tx := tx', dx := dx' }, idx)

/-- SymbolTable.enter_block, src/semantic/symbol_table.py lines 113-117. -/
def SymbolTable.enter_block (st : SymbolTable) : SymbolTable × Nat :=
  ({ st with bx := st.bx + 1, btab := st.btab ++ [⟨0, 0, 0, 0⟩] }, st.bx + 1)

/-- The `while i != 0` chain walk shared by lookup and
lookup_current_scope, src/semantic/symbol_table.py lines 124-127 and
138-141: follow `link` fields from the block's `last` index; index 0
terminates the chain.  The fuel (the table length at every call site)
bounds the walk, which on reachable states follows strictly decreasing
indices; a dangling index, which would raise in Python, stops the walk. -/
def chainFind (tab : List SymbolEntry) (name : Str) : Nat → Nat → Option Nat
  | _, 0 => none
  | 0, _ + 1 => none
  | fuel + 1, i + 1 =>
    match tab.get? (i + 1) with
    | some e => if e.name = name then some (i + 1) else chainFind tab name fuel e.link
    | none => none

/-- The chain walk of one display level. -/
def SymbolTable.chainAtLevel (st : SymbolTable) (name : Str) (lev : Nat) : Option Nat :=
  chainFind st.tab name st.tab.length
    (((st.btab.get? (st.display.getD lev 0)).getD ⟨0, 0, 0, 0⟩).last)

/-- The `for lev in range(self.level, -1, -1)` loop of SymbolTable.lookup,
src/semantic/symbol_table.py lines 120-127. -/
def SymbolTable.lookup_levels (st : SymbolTable) (name : Str) : Nat → Option Nat
  | 0 => st.chainAtLevel name 0
  | lev + 1 =>
    match st.chainAtLevel name (lev + 1) with
    | some i => some i
    | none => st.lookup_levels name lev

/-- The flat fallback scan of SymbolTable.lookup, src/semantic/symbol_table.py
lines 129-131: indices tx down to 0, matching name and level 0.  The
argument is one past the highest index scanned. -/
def flatFind (tab : List SymbolEntry) (name : Str) : Nat → Option Nat
  | 0 => none
  | n + 1 =>
    match tab.get? n with
    | some e => if e.name = name ∧ e.level = 0 then some n else flatFind tab name n
    | none => flatFind tab name n

/-- SymbolTable.lookup, src/semantic/symbol_table.py lines 119-132. -/
def SymbolTable.lookup (st : SymbolTable) (name : Str) : Option Nat :=
  match st.lookup_levels name st.level with
  | some i => some i
  | none => flatFind st.tab name (st.tx + 1).toNat

/-- SymbolTable.lookup_current_scope, src/semantic/symbol_table.py lines
134-143: the innermost scope's chain only. -/
def SymbolTable.lookup_current_scope (st : SymbolTable) (name : Str) : Option Nat :=
  st.chainAtLevel name st.level

/-- SymbolTable.enter_scope, src/semantic/symbol_table.py lines 145-149. -/
def SymbolTable.enter_scope (st : SymbolTable) : SymbolTable :=
  let st1 := { st with level := st.level + 1 }
  let (st2, block_idx) := st1.enter_block
  { st2 with display := st2.display.set st2.level block_idx, dx := 3 }

/-- SymbolTable.exit_scope, src/semantic/symbol_table.py lines 151-155. -/
def SymbolTable.exit_scope (st : SymbolTable) : SymbolTable :=
  if st.level > 0 then
    let lvl := st.level - 1
    let block_idx := st.display.getD lvl 0
    { st with level := lvl,
              dx := ((st.btab.get? block_idx).getD ⟨0, 0, 0, 0⟩).vsze }
  else st

/-- SymbolTable.get_entry, src/semantic/symbol_table.py lines 157-160. -/
def SymbolTable.get_entry (st : SymbolTable) (index : Nat) : Option SymbolEntry :=
  st.tab.get? index

/-- The semantic error taxonomy, src/error/semantic_error.py.  Message
payloads are kept structured (TypeMismatchError carries the two rendered
type strings and the free-text context, as built at the raise sites).
`noneAttribute` stands for the AttributeError Python would raise when a
None symbol-table entry is dereferenced; it is unreachable from states the
semantic visitor actually produces. -/
inductive SemanticError where
  | UndeclaredIdentifierError (identifier : Str)
  | DuplicateDeclarationError (identifier : Str)
  | TypeMismatchError (expected : String) (got : String) (context : String)
  | InvalidOperationError (operation : Str) (operand_type : String)
  | InvalidArrayIndexError (message : Str)
  | InvalidRecordAccessError (record_name : Str) (field_name : Str)
  | InvalidFunctionCallError (message : Str)
  | noneAttribute
deriving DecidableEq, Repr

/-- A numeric literal as the parser stores it: `int(token.value)` when the
text parses as a Python int, the raw text otherwise (a float literal). -/
inductive NumLit where
  | intVal (value : Int)
  | floatRaw (raw : Str)
deriving DecidableEq, Repr

/-- The expression AST variants of src/parse_tree/expression.py.  A
Variable holds one optional array index and one optional record field —
the node has no chain of further access steps. -/
inductive Expr where
  | BinaryOp (left : Expr) (operator : Str) (right : Expr)
  | UnaryOp (operator : Str) (operand : Expr)
  | Variable (name : Str) (index : Option Expr) (field : Option Str)
  | Number (value : NumLit)
  | StringLit (value : Str)
  | CharLit (value : Str)
  | BooleanLit (value : Bool)
  | FunctionCall (name : Str) (arguments : List Expr)

/-- Statement nodes needed here, src/parse_tree/statement.py (the
assignment target is the `variable` field of the Python node). -/
inductive Stmt where
  | AssignmentStatement (var_node : Expr) (expression : Expr)

/-- SemanticVisitor._get_type_size, src/semantic/visitor.py lines 479-484. -/
def get_type_size (type : Ty) : Int :=
  match type.array_info with
  | some ai => ai.size
  | none =>
    match type.record_info with
    | some ri => ri.size
    | none => 1

mutual

/-- The expression part of SemanticVisitor.visit, src/semantic/visitor.py:
visit_binary_op (340-377), visit_unary_op (379-392), visit_variable
(394-425), visit_number/string/char/boolean (427-442), visit_function_call
(444-456), dispatching on the node variant and returning the inferred
type.  Node decoration (`node.sym_type = ...`) only records this returned
type and is not modelled separately. -/
def visitExpr (st : SymbolTable) : Expr → Except SemanticError Ty
  | .BinaryOp left op right => do
    let left_type ← visitExpr st left
    let right_type ← visitExpr st right
    if op = "+".toList ∨ op = "-".toList ∨ op = "*".toList ∨ op = "/".toList then
      if ¬ (left_type.is_numeric ∧ right_type.is_numeric) then
        .error (.InvalidOperationError op (left_type.reprStr ++ " and " ++ right_type.reprStr))
      else if left_type.py_eq REAL_TYPE ∨ right_type.py_eq REAL_TYPE then
        .ok REAL_TYPE
      else
        .ok INTEGER_TYPE
    else if op = "div".toList ∨ op = "mod".toList ∨ op = "bagi".toList then
      if ¬ (left_type.py_eq INTEGER_TYPE ∧ right_type.py_eq INTEGER_TYPE) then
        .error (.InvalidOperationError op (left_type.reprStr ++ " and " ++ right_type.reprStr))
      else
        .ok INTEGER_TYPE
    else if op = "and".toList ∨ op = "or".toList ∨ op = "dan".toList ∨ op = "atau".toList then
      if ¬ (left_type.py_eq BOOLEAN_TYPE ∧ right_type.py_eq BOOLEAN_TYPE) then
        .error (.InvalidOperationError op (left_type.reprStr ++ " and " ++ right_type.reprStr))
      else
        .ok BOOLEAN_TYPE
    else if op = "=".toList ∨ op = "<>".toList ∨ op = "<".toList ∨ op = "<=".toList ∨
            op = ">".toList ∨ op = ">=".toList then
      if ¬ left_type.compatible_with right_type then
        .error (.TypeMismatchError left_type.reprStr right_type.reprStr
          ( "comparison " ++ String.mk op))
      else
        .ok BOOLEAN_TYPE
    else
      .error (.InvalidOperationError op "unknown")
  | .UnaryOp op operand => do
    let operand_type ← visitExpr st operand
    if op = "+".toList ∨ op = "-".toList then
      if ¬ operand_type.is_numeric then
        .error (.InvalidOperationError op operand_type.reprStr)
      else
        .ok operand_type
    else if op = "not".toList then
      if ¬ operand_type.py_eq BOOLEAN_TYPE then
        .error (.InvalidOperationError op operand_type.reprStr)
      else
        .ok BOOLEAN_TYPE
    else
      .error (.InvalidOperationError op "unknown")
  | .Variable name index field =>
    match st.lookup name with
    | none => .error (.UndeclaredIdentifierError name)
    | some idx =>
      match st.get_entry idx with
      | none => .error .noneAttribute
      | some entry =>
        let var_type := entry.type
        match index with
        | some ix =>
          if ¬ var_type.is_array then
            .error (.InvalidArrayIndexError ('\'' :: name ++ "' is not an array".toList))
          else
            match visitExpr st ix with
            | .error e => .error e
            | .ok index_type =>
              if ¬ index_type.is_ordinal then
                .error (.InvalidArrayIndexError ( "index must be ordinal type".toList))
              else
                match var_type.array_info with
                | some ai => .ok ai.element_type
                | none => .error .noneAttribute
        | none =>
          match field with
          | some f =>
            if ¬ var_type.is_record then
              .error (.InvalidRecordAccessError name f)
            else
              match var_type.record_info with
              | some ri =>
                match ri.fields.lookup f with
                | some fe => .ok fe.1
                | none => .error (.InvalidRecordAccessError name f)
              | none => .error .noneAttribute
          | none => .ok var_type
  | .Number value =>
    match value with
    | .intVal _ => .ok INTEGER_TYPE
    | .floatRaw _ => .ok REAL_TYPE
  | .StringLit _ => .ok STRING_TYPE
  | .CharLit _ => .ok CHAR_TYPE
  | .BooleanLit _ => .ok BOOLEAN_TYPE
  | .FunctionCall name arguments =>
    match st.lookup name with
    | none => .error (.UndeclaredIdentifierError name)
    | some idx =>
      match st.get_entry idx with
      | none => .error .noneAttribute
      | some entry =>
        if entry.obj_kind ≠ .FUNCTION then
          .error (.InvalidFunctionCallError ('\'' :: name ++ "' is not a function".toList))
        else do
          visitArgs st arguments
          .ok entry.type

/-- The `for arg in node.arguments: self.visit(arg)` loops of
visit_function_call / visit_procedure_call: arguments are visited for
type inference only, but their errors propagate. -/
def visitArgs (st : SymbolTable) : List Expr → Except SemanticError Unit
  | [] => .ok ()
  | arg :: rest => do
    let _ ← visitExpr st arg
    visitArgs st rest

end

/-- SemanticVisitor.visit_assignment_statement, src/semantic/visitor.py
lines 254-262: visit both sides, then require the variable's type to be
compatible_with the expression's type. -/
def visit_assignment_statement (st : SymbolTable) : Stmt → Except SemanticError Unit
  | .AssignmentStatement var_node expression =>
    match visitExpr st var_node with
    | .error e => .error e
    | .ok var_type =>
      match visitExpr st expression with
      | .error e => .error e
      | .ok expr_type =>
        if ¬ var_type.compatible_with expr_type then
          .error (.TypeMismatchError var_type.reprStr expr_type.reprStr "assignment")
        else
          .ok ()

/-- The per-identifier body of SemanticVisitor.visit_var_declaration,
src/semantic/visitor.py lines 60-68: reject a name already found in the
current scope, otherwise enter it as a VARIABLE of the resolved type. -/
def declare_variable (st : SymbolTable) (identifier : Str) (type_spec : Ty) :
    Except SemanticError SymbolTable :=
  if (st.lookup_current_scope identifier).isSome then
    .error (.DuplicateDeclarationError identifier)
  else
    .ok (st.enter identifier .VARIABLE type_spec none 0 true none).1

/-- Whether an Except carries an error. -/
def isErr {ε α : Type} : Except ε α → Bool
  | .error _ => true
  | .ok _ => false

/-- The identifier loop of one record field declaration inside
SemanticVisitor.visit_record_type, src/semantic/visitor.py lines 238-242:
each name gets (field_type, current offset), duplicates are rejected, the
offset advances by the field size. -/
def recordGroupLoop (field_type : Ty) (field_size : Int) :
    List Str → List (Str × Ty × Int) → Int →
    Except SemanticError (List (Str × Ty × Int) × Int)
  | [], fields, offset => .ok (fields, offset)
  | field_name :: more, fields, offset =>
    if (fields.lookup field_name).isSome then
      .error (.DuplicateDeclarationError field_name)
    else
      recordGroupLoop field_type field_size more
        (fields ++ [(field_name, field_type, offset)]) (offset + field_size)

/-- The field-declaration loop of SemanticVisitor.visit_record_type,
src/semantic/visitor.py lines 234-242, parameterized by the already
resolved type of each field group (the `self.visit(field_decl.type_spec)`
result). -/
def recordFieldsLoop :
    List (List Str × Ty) → List (Str × Ty × Int) → Int →
    Except SemanticError (List (Str × Ty × Int) × Int)
  | [], fields, offset => .ok (fields, offset)
  | (identifiers, field_type) :: rest, fields, offset => do
    let fo ← recordGroupLoop field_type (get_type_size field_type) identifiers fields offset
    recordFieldsLoop rest fo.1 fo.2

/-- SemanticVisitor.visit_record_type, src/semantic/visitor.py lines
230-247: build the field map and total size, then return a Type tagged
SimpleTypeKind.INTEGER carrying the RecordTypeInfo. -/
def visit_record_type (field_groups : List (List Str × Ty)) : Except SemanticError Ty := do
  let fo ← recordFieldsLoop field_groups [] 0
  .ok (Ty.mk .INTEGER none (some (.mk fo.1 fo.2)))

/-- The parser's failure modes, src/error/syntax_error.py plus the two
Python-level exceptions the parser can actually hit: `attributeErrorNone`
is the AttributeError raised when a loop condition or error message
dereferences `self.current_token` while it is None, `outOfFuel` marks
recursion-depth exhaustion of the fuel-indexed embedding (Python's stack
limit; never reached at the depths used here). -/
inductive ParseErr where
  | SyntaxErr (message : String) (token : Option Token)
  | UnexpectedTokenError (expected_type : TokenType) (expected_value : Option Str) (got : Token)
  | UnexpectedEOFError (expected_type : TokenType) (expected_value : Option Str)
  | UnexpectedEOFAdvance
  | attributeErrorNone
  | outOfFuel
deriving DecidableEq, Repr

/-- Parser state, src/parser/parser.py lines 29-38: the token list and the
cursor.  The cached `current_token` always equals `tokens[current_index]`
(or None past the end) and is embedded as the derived function below. -/
structure ParserState where
  tokens : List Token
  current_index : Nat
deriving DecidableEq, Repr

/-- The cached `current_token` field. -/
def ParserState.current_token (p : ParserState) : Option Token :=
  p.tokens.get? p.current_index

/-- Parser.peek, src/parser/parser.py lines 52-65. -/
def ParserState.peek (p : ParserState) (offset : Nat) : Option Token :=
  p.tokens.get? (p.current_index + offset)

/-- Parser.advance, src/parser/parser.py lines 67-86: return the current
token and move on; raises UnexpectedEOFError("more tokens") when already
exhausted. -/
def ParserState.advance (p : ParserState) : Except ParseErr (Token × ParserState) :=
  match p.current_token with
  | none => .error .UnexpectedEOFAdvance
  | some old_token => .ok (old_token, { p with current_index := p.current_index + 1 })

/-- Parser.expect, src/parser/parser.py lines 88-119 (the expected
kind/value pair is carried structurally instead of as the formatted
description string). -/
def ParserState.expect (p : ParserState) (token_type : TokenType) (value : Option Str) :
    Except ParseErr (Token × ParserState) :=
  match p.current_token with
  | none => .error (.UnexpectedEOFError token_type value)
  | some t =>
    if t.type ≠ token_type then
      .error (.UnexpectedTokenError token_type value t)
    else
      match value with
      | some v =>
        if lower t.value ≠ lower v then
          .error (.UnexpectedTokenError token_type (some v) t)
        else
          p.advance
      | none => p.advance

/-- Parser.match, src/parser/parser.py lines 121-141 (named matchT; `match`
is reserved in Lean). -/
def ParserState.matchT (p : ParserState) (token_type : TokenType) (value : Option Str) : Bool :=
  match p.current_token with
  | none => false
  | some t =>
    if t.type ≠ token_type then false
    else
      match value with
      | some v => decide (lower t.value = lower v)
      | none => true

/-- The while-condition of parse_simple_expression, src/parser/parser.py
lines 902-906, evaluated as Python evaluates it: `and` binds tighter than
`or`, so the condition is `(current and (ARITH and value in (+,-))) or
(LOGICAL and value.lower()=="atau")`.  When current_token is None the left
disjunct is falsy and evaluating the right disjunct dereferences
None.type, raising AttributeError. -/
def addopLoopCond (current_token : Option Token) : Except ParseErr Bool :=
  match current_token with
  | none => .error .attributeErrorNone
  | some t =>
    .ok (decide ((t.type = .ARITHMETIC_OPERATOR ∧
                   (t.value = "+".toList ∨ t.value = "-".toList)) ∨
                 (t.type = .LOGICAL_OPERATOR ∧ lower t.value = "atau".toList)))

/-- The while-condition of parse_term, src/parser/parser.py lines 926-930,
with the same operator-precedence shape and the same AttributeError on a
None current token. -/
def mulopLoopCond (current_token : Option Token) : Except ParseErr Bool :=
  match current_token with
  | none => .error .attributeErrorNone
  | some t =>
    .ok (decide ((t.type = .ARITHMETIC_OPERATOR ∧
                   (t.value = "*".toList ∨ t.value = "/".toList ∨
                    t.value = "bagi".toList ∨ t.value = "mod".toList)) ∨
                 (t.type = .LOGICAL_OPERATOR ∧ lower t.value = "dan".toList)))

/-- Python int(text): an optional sign followed by at least one digit. -/
def pyInt (s : Str) : Option Int :=
  let digits : Str → Option Nat := fun ds =>
    if ds ≠ [] ∧ ds.all Char.isDigit then
      some (ds.foldl (fun n c => n * 10 + (c.toNat - 48)) 0)
    else none
  match s with
  | '-' :: rest => (digits rest).map (fun n => -(n : Int))
  | '+' :: rest => (digits rest).map (fun n => (n : Int))
  | _ => (digits s).map (fun n => (n : Int))

/-- The `try: int(...) except: float(...)` of parse_factor lines 956-959. -/
def parseNum (s : Str) : NumLit :=
  match pyInt s with
  | some n => .intVal n
  | none => .floatRaw s

mutual

/-- Parser.parse_expression, src/parser/parser.py lines 857-875. -/
def parse_expression (fuel : Nat) (p : ParserState) : Except ParseErr (Expr × ParserState) :=
  match fuel with
  | 0 => .error .outOfFuel
  | fuel + 1 => do
    let (left, p1) ← parse_simple_expression fuel p
    match p1.current_token with
    | some t =>
      if t.type = .RELATIONAL_OPERATOR then do
        let (opTok, p2) ← p1.advance
        let (right, p3) ← parse_simple_expression fuel p2
        .ok (.BinaryOp left opTok.value right, p3)
      else
        .ok (left, p1)
    | none => .ok (left, p1)

/-- Parser.parse_simple_expression, src/parser/parser.py lines 877-911:
optional unary sign, a term, then the additive loop. -/
def parse_simple_expression (fuel : Nat) (p : ParserState) :
    Except ParseErr (Expr × ParserState) :=
  match fuel with
  | 0 => .error .outOfFuel
  | fuel + 1 => do
    let signed : Option Str × ParserState ←
      if p.matchT .ARITHMETIC_OPERATOR none then
        match p.current_token with
        | some t =>
          if t.value = "+".toList ∨ t.value = "-".toList then do
            let (tk, p') ← p.advance
            pure (some tk.value, p')
          else pure (none, p)
        | none => pure (none, p)
      else pure (none, p)
    let (left0, p2) ← parse_term fuel signed.2
    let left :=
      if signed.1 = some ( "-".toList) then Expr.UnaryOp ( "-".toList) left0
      else if signed.1 = some ( "+".toList) then Expr.UnaryOp ( "+".toList) left0
      else left0
    parse_addop_loop fuel left p2

/-- The additive-operator loop of parse_simple_expression, lines 902-909. -/
def parse_addop_loop (fuel : Nat) (left : Expr) (p : ParserState) :
    Except ParseErr (Expr × ParserState) :=
  match fuel with
  | 0 => .error .outOfFuel
  | fuel + 1 =>
    match addopLoopCond p.current_token with
    | .error e => .error e
    | .ok false => .ok (left, p)
    | .ok true => do
      let (opTok, p1) ← p.advance
      let (right, p2) ← parse_term fuel p1
      parse_addop_loop fuel (.BinaryOp left opTok.value right) p2

/-- Parser.parse_term, src/parser/parser.py lines 913-935. -/
def parse_term (fuel : Nat) (p : ParserState) : Except ParseErr (Expr × ParserState) :=
  match fuel with
  | 0 => .error .outOfFuel
  | fuel + 1 => do
    let (left, p1) ← parse_factor fuel p
    parse_mulop_loop fuel left p1

/-- The multiplicative-operator loop of parse_term, lines 926-933. -/
def parse_mulop_loop (fuel : Nat) (left : Expr) (p : ParserState) :
    Except ParseErr (Expr × ParserState) :=
  match fuel with
  | 0 => .error .outOfFuel
  | fuel + 1 =>
    match mulopLoopCond p.current_token with
    | .error e => .error e
    | .ok false => .ok (left, p)
    | .ok true => do
      let (opTok, p1) ← p.advance
      let (right, p2) ← parse_factor fuel p1
      parse_mulop_loop fuel (.BinaryOp left opTok.value right) p2

/-- Parser.parse_factor, src/parser/parser.py lines 937-1000.  In the
final else-branch the Python error message interpolates
`self.current_token.type.name`, so a None current token raises
AttributeError there rather than a syntax error. -/
def parse_factor (fuel : Nat) (p : ParserState) : Except ParseErr (Expr × ParserState) :=
  match fuel with
  | 0 => .error .outOfFuel
  | fuel + 1 =>
    if p.matchT .NUMBER none then do
      let (tk, p1) ← p.advance
      .ok (.Number (parseNum tk.value), p1)
    else if p.matchT .STRING_LITERAL none then do
      let (tk, p1) ← p.advance
      .ok (.StringLit tk.value, p1)
    else if p.matchT .CHAR_LITERAL none then do
      let (tk, p1) ← p.advance
      .ok (.CharLit tk.value, p1)
    else if p.matchT .LPARENTHESIS none then do
      let (_, p1) ← p.advance
      let (expr, p2) ← parse_expression fuel p1
      let (_, p3) ← p2.expect .RPARENTHESIS none
      .ok (expr, p3)
    else if p.matchT .LOGICAL_OPERATOR (some ( "tidak".toList)) then do
      let (_, p1) ← p.advance
      let (operand, p2) ← parse_factor fuel p1
      .ok (.UnaryOp ( "tidak".toList) operand, p2)
    else if p.matchT .IDENTIFIER none then
      match p.current_token with
      | some t =>
        if lower t.value = "true".toList ∨ lower t.value = "false".toList then do
          let (tk, p1) ← p.advance
          .ok (.BooleanLit (decide (lower tk.value = "true".toList)), p1)
        else
          match p.peek 1 with
          | some t1 =>
            if t1.type = .LPARENTHESIS then parse_function_call fuel p
            else parse_variable fuel p
          | none => parse_variable fuel p
      | none => parse_variable fuel p
    else
      match p.current_token with
      | some t => .error (.SyntaxErr "Unexpected token in expression" (some t))
      | none => .error .attributeErrorNone

/-- Parser.parse_variable, src/parser/parser.py lines 1002-1030: an
identifier followed by at most ONE suffix — either a bracketed index or a
dotted field — never both. -/
def parse_variable (fuel : Nat) (p : ParserState) : Except ParseErr (Expr × ParserState) :=
  match fuel with
  | 0 => .error .outOfFuel
  | fuel + 1 => do
    let (nameTok, p1) ← p.expect .IDENTIFIER none
    if p1.matchT .LBRACKET none then do
      let (_, p2) ← p1.advance
      let (index, p3) ← parse_expression fuel p2
      let (_, p4) ← p3.expect .RBRACKET none
      .ok (.Variable nameTok.value (some index) none, p4)
    else if p1.matchT .DOT none then do
      let (_, p2) ← p1.advance
      let (fieldTok, p3) ← p2.expect .IDENTIFIER none
      .ok (.Variable nameTok.value none (some fieldTok.value), p3)
    else
      .ok (.Variable nameTok.value none none, p1)

/-- Parser.parse_function_call, src/parser/parser.py lines 1032-1051. -/
def parse_function_call (fuel : Nat) (p : ParserState) :
    Except ParseErr (Expr × ParserState) :=
  match fuel with
  | 0 => .error .outOfFuel
  | fuel + 1 => do
    let (nameTok, p1) ← p.expect .IDENTIFIER none
    let (_, p2) ← p1.expect .LPARENTHESIS none
    if ¬ p2.matchT .RPARENTHESIS none then do
      let (args, p3) ← parse_parameter_list fuel p2
      let (_, p4) ← p3.expect .RPARENTHESIS none
      .ok (.FunctionCall nameTok.value args, p4)
    else do
      let (_, p3) ← p2.expect .RPARENTHESIS none
      .ok (.FunctionCall nameTok.value [], p3)

/-- Parser.parse_parameter_list, src/parser/parser.py lines 835-851. -/
def parse_parameter_list (fuel : Nat) (p : ParserState) :
    Except ParseErr (List Expr × ParserState) :=
  match fuel with
  | 0 => .error .outOfFuel
  | fuel + 1 => do
    let (first, p1) ← parse_expression fuel p
    parse_param_loop fuel [first] p1

/-- The comma loop of parse_parameter_list, lines 847-849. -/
def parse_param_loop (fuel : Nat) (acc : List Expr) (p : ParserState) :
    Except ParseErr (List Expr × ParserState) :=
  match fuel with
  | 0 => .error .outOfFuel
  | fuel + 1 =>
    if p.matchT .COMMA none then do
      let (_, p1) ← p.advance
      let (next, p2) ← parse_expression fuel p1
      parse_param_loop fuel (acc ++ [next]) p2
    else
      .ok (acc, p)

end

/-- Parser.parse_assignment_statement, src/parser/parser.py lines 662-676:
variable, ASSIGN_OPERATOR, expression. -/
def parse_assignment_statement (fuel : Nat) (p : ParserState) :
    Except ParseErr (Stmt × ParserState) :=
  match fuel with
  | 0 => .error .outOfFuel
  | fuel + 1 => do
    let (var_node, p1) ← parse_variable fuel p
    let (_, p2) ← p1.expect .ASSIGN_OPERATOR none
    let (expression, p3) ← parse_expression fuel p2
    .ok (.AssignmentStatement var_node expression, p3)

/-- A small DFA configuration of the documented external-interface shape
(the project's config/dfa_rules.json is external input, consumed but not
owned by the sources): digits scan to NUMBER, with a dot-then-digit
continuation for reals through the non-accepting DOTPART state; blanks to
WHITESPACE; `-` to ARITHMETIC_OPERATOR. -/
def modelDFA : DFA where
  start_state := "START"
  final_states :=
    [ ( "NUM", .NUMBER), ( "REALNUM", .NUMBER), ( "WS", .WHITESPACE),
      ( "MINUS", .ARITHMETIC_OPERATOR)]
  char_classes := [ ( "digit", fun c => c.isDigit), ( "space", fun c => c == ' ')]
  transitions :=
    [ ( ( "START", "digit"), "NUM"), ( ( "NUM", "digit"), "NUM"),
      ( ( "NUM", "."), "DOTPART"), ( ( "DOTPART", "digit"), "REALNUM"),
      ( ( "REALNUM", "digit"), "REALNUM"),
      ( ( "START", "space"), "WS"), ( ( "WS", "space"), "WS"),
      ( ( "START", "-"), "MINUS")]

/-- The model configuration wrapped as a Lexer (no keywords, no reserved
words). -/
def modelLexer : Lexer := ⟨modelDFA, [], []⟩

/-- A scope with a constant `a` (landing at table index 0), then a constant
`x`, then a variable `y`.  Entering `y` after the non-VARIABLE entry `x`
stores link 0, severing the block's chain before `x`. -/
def tableConstAConstXVarY : SymbolTable :=
  (((((SymbolTable.init.enter ( "a".toList) .CONSTANT INTEGER_TYPE none 0 true none).1).enter
      ( "x".toList) .CONSTANT INTEGER_TYPE none 0 true none).1).enter
      ( "y".toList) .VARIABLE INTEGER_TYPE none 0 true none).1

/-- A table whose only entry (`w`, level 0) sits at index 0. -/
def tableSingleW : SymbolTable :=
  (SymbolTable.init.enter ( "w".toList) .CONSTANT INTEGER_TYPE none 0 true none).1

/-- A table with one non-empty scope, for instantiating the amended
duplicate-declaration theorem. -/
def tableConstA : SymbolTable :=
  (SymbolTable.init.enter ( "a".toList) .CONSTANT INTEGER_TYPE none 0 true none).1

/-- A record type as the semantic visitor constructs one: kind tag
INTEGER, one integer field `a`. -/
def recordTyA : Ty := Ty.mk .INTEGER none (some (.mk [( "a".toList, INTEGER_TYPE, 0)] 1))

/-- A structurally different record type with the same kind tag: one real
field `b`. -/
def recordTyB : Ty := Ty.mk .INTEGER none (some (.mk [( "b".toList, REAL_TYPE, 0)] 1))

/-- A table declaring `rx` of the first record type and `ry` of the
second. -/
def tableTwoRecords : SymbolTable :=
  ((SymbolTable.init.enter ( "rx".toList) .VARIABLE recordTyA none 0 true none).1.enter
    ( "ry".toList) .VARIABLE recordTyB none 0 true none).1

/-- A table declaring variable `x` : REAL and variable `y` : INTEGER. -/
def tableRealIntVars : SymbolTable :=
  ((SymbolTable.init.enter ( "x".toList) .VARIABLE REAL_TYPE none 0 true none).1.enter
    ( "y".toList) .VARIABLE INTEGER_TYPE none 0 true none).1

/-- A record type with a single REAL field `f`, and a table declaring a
variable `r` of it and a variable `arr` of an array type over it. -/
def recordTyF : Ty := Ty.mk .INTEGER none (some (.mk [( "f".toList, REAL_TYPE, 0)] 1))

/-- An array type (as visit_array_type constructs one: kind tag INTEGER,
array_info carrying the element type) whose elements are recordTyF. -/
def arrayTyF : Ty :=
  Ty.mk .INTEGER (some (.mk INTEGER_TYPE recordTyF 1 10 1 10 none)) none

/-- A table declaring `r` : recordTyF and `arr` : arrayTyF. -/
def tableRecordArray : SymbolTable :=
  ((SymbolTable.init.enter ( "r".toList) .VARIABLE recordTyF none 0 true none).1.enter
    ( "arr".toList) .VARIABLE arrayTyF none 0 true none).1

/-- Token stream for `a[1].f := 0` (whitespace dropped, as the parser's
callers do). -/
def toksIndexedField : List Token :=
  [⟨.IDENTIFIER, "a".toList, 0, 1⟩, ⟨.LBRACKET, "[".toList, 1, 2⟩,
   ⟨.NUMBER, "1".toList, 2, 3⟩, ⟨.RBRACKET, "]".toList, 3, 4⟩,
   ⟨.DOT, ".".toList, 4, 5⟩, ⟨.IDENTIFIER, "f".toList, 5, 6⟩,
   ⟨.ASSIGN_OPERATOR, ":=".toList, 7, 9⟩, ⟨.NUMBER, "0".toList, 10, 11⟩]

/-- Token stream for `x := 1` with nothing after it. -/
def toksAssignOne : List Token :=
  [⟨.IDENTIFIER, "x".toList, 0, 1⟩, ⟨.ASSIGN_OPERATOR, ":=".toList, 2, 4⟩,
   ⟨.NUMBER, "1".toList, 5, 6⟩]

theorem concatValues_nil : concatValues [] = [] := rfl

theorem concatValues_cons (t : Token) (ts : List Token) :
    concatValues (t :: ts) = t.value ++ concatValues ts := rfl

theorem concatValues_append (a b : List Token) :
    concatValues (a ++ b) = concatValues a ++ concatValues b := by
  induction a with
  | nil => simp [concatValues_nil]
  | cons t rest ih =>
    simp [concatValues_cons, ih, List.append_assoc]

/-- REAL accepts INTEGER under compatible_with, whatever the payloads. -/
theorem compatible_with_real_int (vt et : Ty) (hv : vt.kind = .REAL)
    (he : et.kind = .INTEGER) : vt.compatible_with et = true := by
  cases vt with
  | mk k1 a1 r1 =>
    cases et with
    | mk k2 a2 r2 =>
      simp only [Ty.kind] at hv he
      subst hv he
      cases a1 with
      | none => cases a2 <;> simp [Ty.compatible_with]
      | some ai1 =>
        cases ai1
        cases a2 with
        | none => simp [Ty.compatible_with]
        | some ai2 => cases ai2 ; simp [Ty.compatible_with]

/-- INTEGER does not accept REAL under compatible_with. -/
theorem compatible_with_int_real (vt et : Ty) (hv : vt.kind = .INTEGER)
    (he : et.kind = .REAL) : vt.compatible_with et = false := by
  cases vt with
  | mk k1 a1 r1 =>
    cases et with
    | mk k2 a2 r2 =>
      simp only [Ty.kind] at hv he
      subst hv he
      cases a1 with
      | none => cases a2 <;> simp [Ty.compatible_with]
      | some ai1 =>
        cases ai1
        cases a2 with
        | none => simp [Ty.compatible_with]
        | some ai2 => cases ai2 ; simp [Ty.compatible_with]

/-- C7: for every DFA, state and character, can_transition returns true
exactly when step from that state would return a new state; and when no
transition applies (step returns none) the current state is left
unchanged — can_transition itself performs the same lookup without any
state update, which the explicit-state embedding makes structural. -/
theorem can_transition_iff_step (d : DFA) (s : String) (c : Char) :
    (d.can_transition s c = true ↔ (d.step s c).isSome = true) ∧
    (d.step s c = none → d.step_state s c = s) := by
  constructor
  · unfold DFA.can_transition DFA.step
    cases hl : d.transitions.lookup (s, c.toString) with
    | some t => simp
    | none =>
      simp only [Option.isSome_none, Bool.false_or]
      cases hf : d.transitions.find?
          (fun tr => tr.1.1 == s && d.matchesClass tr.1.2 c) with
      | some tr =>
        simp only [Option.isSome_some, iff_true]
        have hmem := List.mem_of_find?_eq_some hf
        have hp := @List.find?_some _ _ _ _ hf
        exact List.any_eq_true.mpr ⟨tr, hmem, hp⟩
      | none =>
        simp only [Option.isSome_none]
        constructor
        · intro hany
          obtain ⟨x, hx, hpx⟩ := List.any_eq_true.mp hany
          exact absurd hpx (by simpa using List.find?_eq_none.mp hf x hx)
        · intro h
          exact absurd h (by simp)
  · intro h
    simp [DFA.step_state, h]

/-- Witness for can_transition_iff_step: in the model DFA, no transition
leaves START on `x`, and the state is unchanged. -/
theorem can_transition_iff_step_witness :
    DFA.step modelDFA modelDFA.start_state 'x' = none ∧
    DFA.step_state modelDFA modelDFA.start_state 'x' = modelDFA.start_state :=
  ⟨by decide, (can_transition_iff_step modelDFA modelDFA.start_state 'x').2 (by decide)⟩

/-- C4 (amended): two record types carrying the same kind tag are equal
under Type.__eq__ (which compares only kinds), but Type.compatible_with
returns false for every record/record pair: the `self.kind == other.kind`
block handles only the simple and array/array cases, so records fall
through to the REAL/INTEGER widening test and fail it — record-to-record
assignment therefore does NOT pass the assignment compatibility check. -/
theorem record_compatible_with_false (k : SimpleTypeKind) (r1 r2 : RecordTypeInfo) :
    Ty.compatible_with (Ty.mk k none (some r1)) (Ty.mk k none (some r2)) = false ∧
    Ty.py_eq (Ty.mk k none (some r1)) (Ty.mk k none (some r2)) = true := by
  constructor
  · simp [Ty.compatible_with]
    intro hk
    subst hk
    simp
  · simp [Ty.py_eq, Ty.kind]

/-- Counterexample to C4 as stated: two record types built exactly as the
semantic visitor builds them (same INTEGER kind tag) are not
compatible_with each other, and assigning one record variable to another
raises TypeMismatchError rather than passing. -/
theorem record_compatibility_counterexample :
    visit_record_type [([ "a".toList], INTEGER_TYPE)] = .ok recordTyA ∧
    visit_record_type [([ "b".toList], REAL_TYPE)] = .ok recordTyB ∧
    Ty.compatible_with recordTyA recordTyB = false ∧
    visit_assignment_statement tableTwoRecords
      (.AssignmentStatement (.Variable ( "rx".toList) none none)
        (.Variable ( "ry".toList) none none)) =
      .error (.TypeMismatchError "record" "record" "assignment") := by
  refine ⟨rfl, rfl, rfl, rfl⟩

/-- C6: assignment compatibility is directional.  Whenever the visited
variable type has kind REAL and the visited expression type has kind
INTEGER, visit_assignment_statement succeeds; in the opposite direction it
raises TypeMismatchError for the "assignment" context. -/
theorem assignment_widening_directional (st : SymbolTable) (v e : Expr) (vt et : Ty)
    (hv : visitExpr st v = .ok vt) (he : visitExpr st e = .ok et) :
    (vt.kind = .REAL → et.kind = .INTEGER →
      visit_assignment_statement st (.AssignmentStatement v e) = .ok ()) ∧
    (vt.kind = .INTEGER → et.kind = .REAL →
      visit_assignment_statement st (.AssignmentStatement v e) =
        .error (.TypeMismatchError vt.reprStr et.reprStr "assignment")) := by
  constructor
  · intro h1 h2
    have hcw := compatible_with_real_int vt et h1 h2
    simp [visit_assignment_statement, hv, he, hcw]
  · intro h1 h2
    have hcw := compatible_with_int_real vt et h1 h2
    simp [visit_assignment_statement, hv, he, hcw]

/-- Witness for assignment_widening_directional on a table with `x` : REAL
and `y` : INTEGER: `x := y` passes, `y := x` raises TypeMismatchError. -/
theorem assignment_widening_directional_witness :
    visit_assignment_statement tableRealIntVars
      (.AssignmentStatement (.Variable ( "x".toList) none none)
        (.Variable ( "y".toList) none none)) = .ok () ∧
    visit_assignment_statement tableRealIntVars
      (.AssignmentStatement (.Variable ( "y".toList) none none)
        (.Variable ( "x".toList) none none)) =
      .error (.TypeMismatchError INTEGER_TYPE.reprStr REAL_TYPE.reprStr "assignment") :=
  ⟨(assignment_widening_directional tableRealIntVars
      (.Variable ( "x".toList) none none) (.Variable ( "y".toList) none none)
      REAL_TYPE INTEGER_TYPE rfl rfl).1 rfl rfl,
   (assignment_widening_directional tableRealIntVars
      (.Variable ( "y".toList) none none) (.Variable ( "x".toList) none none)
      INTEGER_TYPE REAL_TYPE rfl rfl).2 rfl rfl⟩

/-- A link-chain walk can only return an index it was standing on inside
the `while i != 0` guard, so it never returns index 0. -/
theorem chainFind_ne_some_zero (tab : List SymbolEntry) (name : Str) :
    ∀ fuel i, chainFind tab name fuel i ≠ some 0 := by
  intro fuel
  induction fuel with
  | zero => intro i ; cases i <;> simp [chainFind]
  | succ f ih =>
    intro i
    cases i with
    | zero => simp [chainFind]
    | succ n =>
      cases hg : tab.get? (n + 1) with
      | none => simp only [chainFind, hg] ; simp
      | some e =>
        simp only [chainFind, hg]
        split
        · simp
        · exact ih e.link

/-- The per-level chain search of lookup never returns index 0 either. -/
theorem lookup_levels_ne_some_zero (st : SymbolTable) (name : Str) :
    ∀ lev, st.lookup_levels name lev ≠ some 0 := by
  intro lev
  induction lev with
  | zero =>
    simp only [SymbolTable.lookup_levels, SymbolTable.chainAtLevel]
    exact chainFind_ne_some_zero st.tab name st.tab.length _
  | succ l ih =>
    simp only [SymbolTable.lookup_levels]
    cases hc : st.chainAtLevel name (l + 1) with
    | none => simpa [hc] using ih
    | some i =>
      simp only [hc]
      intro h
      apply chainFind_ne_some_zero st.tab name st.tab.length
        (((st.btab.get? (st.display.getD (l + 1) 0)).getD ⟨0, 0, 0, 0⟩).last)
      simpa [SymbolTable.chainAtLevel, h] using hc

/-- C9: because index 0 doubles as the chain terminator, no link chain can
ever yield the table's first entry: lookup_current_scope never returns
index 0 for any table state and name, and lookup can return index 0 only
through its flat fallback scan over level-0 entries (its chain phase
having found nothing). -/
theorem index_zero_unreachable_via_chains (st : SymbolTable) (name : Str) :
    st.lookup_current_scope name ≠ some 0 ∧
    (st.lookup name = some 0 →
      st.lookup_levels name st.level = none ∧
      flatFind st.tab name (st.tx + 1).toNat = some 0) := by
  constructor
  · simp only [SymbolTable.lookup_current_scope, SymbolTable.chainAtLevel]
    exact chainFind_ne_some_zero st.tab name st.tab.length _
  · intro h
    unfold SymbolTable.lookup at h
    cases hl : st.lookup_levels name st.level with
    | some i =>
      rw [hl] at h
      simp only [Option.some.injEq] at h
      exact absurd (h ▸ hl) (lookup_levels_ne_some_zero st name st.level)
    | none =>
      rw [hl] at h
      exact ⟨rfl, h⟩

/-- Witness for index_zero_unreachable_via_chains: a table whose only
entry `w` sits at index 0; lookup finds it (= some 0) through the flat
fallback while the chain search finds nothing. -/
theorem index_zero_unreachable_via_chains_witness :
    tableSingleW.lookup_levels ( "w".toList) tableSingleW.level = none ∧
    flatFind tableSingleW.tab ( "w".toList) (tableSingleW.tx + 1).toNat = some 0 :=
  (index_zero_unreachable_via_chains tableSingleW ( "w".toList)).2 rfl

/-- C2 (amended): a re-declaration is rejected exactly when the earlier
entry is still reachable over the current block's link chain.  In
particular, when the clashing name is the scope's most recent entry (at a
nonzero table index), the following var-declaration of the same name
raises DuplicateDeclarationError — whatever the two kinds are. -/
theorem redeclaration_rejected_when_chained (st : SymbolTable) (n : Str)
    (k : ObjectKind) (ty ty2 : Ty)
    (hb : st.display.getD st.level 0 < st.btab.length)
    (htx : (st.tx + 1).toNat = st.tab.length)
    (h0 : 0 < st.tab.length) :
    declare_variable (st.enter n k ty none 0 true none).1 n ty2 =
      .error (.DuplicateDeclarationError n) := by
  have htab : ∃ e : SymbolEntry, e.name = n ∧
      ((st.enter n k ty none 0 true none).1).tab = st.tab ++ [e] := by
    exact ⟨_, rfl, rfl⟩
  obtain ⟨e, hen, htabeq⟩ := htab
  have hbtab : ∃ b : BlockEntry, b.last = (st.tx + 1).toNat ∧
      ((st.enter n k ty none 0 true none).1).btab =
        st.btab.set (st.display.getD st.level 0) b := by
    exact ⟨_, rfl, rfl⟩
  obtain ⟨b, hbl, hbtabeq⟩ := hbtab
  have hlev : ((st.enter n k ty none 0 true none).1).level = st.level := rfl
  have hdisp : ((st.enter n k ty none 0 true none).1).display = st.display := rfl
  have hscope : ((st.enter n k ty none 0 true none).1).lookup_current_scope n =
      some st.tab.length := by
    unfold SymbolTable.lookup_current_scope SymbolTable.chainAtLevel
    rw [htabeq, hbtabeq, hlev, hdisp]
    rw [List.get?_set_of_lt' b st.btab hb]
    rw [if_pos rfl]
    simp only [Option.getD_some, hbl, htx]
    have hlen : (st.tab ++ [e]).length = st.tab.length + 1 := by simp
    rw [hlen]
    obtain ⟨m, hm⟩ : ∃ m, st.tab.length = m + 1 :=
      ⟨st.tab.length - 1, (Nat.succ_pred_eq_of_pos h0).symm⟩
    rw [hm]
    have hget : (st.tab ++ [e]).get? (m + 1) = some e := by
      rw [← hm]
      exact List.get?_concat_length st.tab e
    simp only [chainFind, hget]
    rw [hen]
    simp
  simp [declare_variable, hscope]

/-- Witness for redeclaration_rejected_when_chained: in a one-entry scope,
entering `x` as a TYPE and then var-declaring `x` raises
DuplicateDeclarationError. -/
theorem redeclaration_rejected_when_chained_witness :
    declare_variable ((tableConstA.enter ( "x".toList) .TYPE INTEGER_TYPE none 0 true none).1)
      ( "x".toList) INTEGER_TYPE = .error (.DuplicateDeclarationError ( "x".toList)) :=
  redeclaration_rejected_when_chained tableConstA ( "x".toList) .TYPE
    INTEGER_TYPE INTEGER_TYPE (by decide) (by decide) (by decide)

/-- Counterexample to C2 as stated: in one scope holding constant `a`,
constant `x` and variable `y`, the VARIABLE entry `y` was linked with
link 0 (its predecessor `x` is not a VARIABLE), severing the block's
chain; a second declaration of `x` is then NOT rejected —
lookup_current_scope misses the earlier `x` and declare_variable
succeeds. -/
theorem duplicate_after_chain_break_accepted :
    tableConstAConstXVarY.lookup_current_scope ( "x".toList) = none ∧
    isErr (declare_variable tableConstAConstXVarY ( "x".toList) REAL_TYPE) = false := by
  exact ⟨rfl, rfl⟩

/-- C10: with the token list exhausted right after a complete factor, the
additive and multiplicative loop conditions of parse_simple_expression and
parse_term dereference the None current token and fail with Python's
AttributeError — not with the taxonomy's UnexpectedEndOfInput — and the
whole parse of `x := 1` (nothing following) fails the same way. -/
theorem expression_loops_attribute_error_at_eof :
    addopLoopCond none = .error .attributeErrorNone ∧
    mulopLoopCond none = .error .attributeErrorNone ∧
    parse_term 20 ⟨[⟨.NUMBER, "1".toList, 0, 1⟩], 0⟩ = .error .attributeErrorNone ∧
    parse_simple_expression 20 ⟨[⟨.NUMBER, "1".toList, 0, 1⟩], 0⟩ =
      .error .attributeErrorNone ∧
    parse_assignment_statement 20 ⟨toksAssignOne, 0⟩ = .error .attributeErrorNone := by
  refine ⟨rfl, rfl, rfl, rfl, rfl⟩

/-- Counterexample to C5 as stated: the token stream of `a[1].f := 0` is
rejected by the parser — parse_variable consumes only `a[1]` and the
following expect(ASSIGN_OPERATOR) fails at the dot with
UnexpectedTokenError; the pipeline never reaches the semantic visitor. -/
theorem indexed_field_access_rejected :
    parse_assignment_statement 20 ⟨toksIndexedField, 0⟩ =
      .error (.UnexpectedTokenError .ASSIGN_OPERATOR none ⟨.DOT, ".".toList, 4, 5⟩) := by
  rfl

/-- C5 (amended): the parser accepts only single-step accesses — `a`,
`a[i]` or `a.f`; after one suffix parse_variable returns, so `a[i].f`
cannot be parsed.  For the single-step forms the semantic visitor resolves
the type correctly: a field access on a record-typed variable yields the
field's declared type, an ordinal-indexed access on an array-typed
variable yields the element type. -/
theorem single_step_access_resolution :
    (∀ (va vf : Str) (s1 e1 s2 e2 s3 e3 fuel : Nat),
      parse_variable (fuel + 1)
        ⟨[⟨.IDENTIFIER, va, s1, e1⟩, ⟨.DOT, ".".toList, s2, e2⟩,
          ⟨.IDENTIFIER, vf, s3, e3⟩], 0⟩ =
        .ok (.Variable va none (some vf),
          ⟨[⟨.IDENTIFIER, va, s1, e1⟩, ⟨.DOT, ".".toList, s2, e2⟩,
            ⟨.IDENTIFIER, vf, s3, e3⟩], 3⟩)) ∧
    (∀ (st : SymbolTable) (name fname : Str) (idx : Nat) (entry : SymbolEntry)
       (ri : RecordTypeInfo) (ftype : Ty) (off : Int),
      st.lookup name = some idx →
      st.get_entry idx = some entry →
      entry.type.record_info = some ri →
      ri.fields.lookup fname = some (ftype, off) →
      visitExpr st (.Variable name none (some fname)) = .ok ftype) ∧
    (∀ (st : SymbolTable) (name : Str) (idx : Nat) (entry : SymbolEntry)
       (ai : ArrayTypeInfo) (ix : Expr) (ixt : Ty),
      st.lookup name = some idx →
      st.get_entry idx = some entry →
      entry.type.array_info = some ai →
      visitExpr st ix = .ok ixt →
      ixt.is_ordinal = true →
      visitExpr st (.Variable name (some ix) none) = .ok ai.element_type) := by
  refine ⟨?_, ?_, ?_⟩
  · intro va vf s1 e1 s2 e2 s3 e3 fuel
    rfl
  · intro st name fname idx entry ri ftype off hl hg hri hf
    simp only [visitExpr, hl, hg]
    simp [Ty.is_record, hri, hf]
  · intro st name idx entry ai ix ixt hl hg hai hix hord
    simp only [visitExpr, hl, hg]
    simp [Ty.is_array, hai, hix, hord]

/-- Witness for single_step_access_resolution: `r.f` on a record variable
with REAL field `f` resolves to REAL, `arr[1]` on an array of that record
type resolves to the record element type, and the parse shape of `a.f`. -/
theorem single_step_access_resolution_witness :
    parse_variable 5
      ⟨[⟨.IDENTIFIER, "a".toList, 0, 1⟩, ⟨.DOT, ".".toList, 1, 2⟩,
        ⟨.IDENTIFIER, "f".toList, 2, 3⟩], 0⟩ =
      .ok (.Variable ( "a".toList) none (some ( "f".toList)),
        ⟨[⟨.IDENTIFIER, "a".toList, 0, 1⟩, ⟨.DOT, ".".toList, 1, 2⟩,
          ⟨.IDENTIFIER, "f".toList, 2, 3⟩], 3⟩) ∧
    visitExpr tableRecordArray (.Variable ( "r".toList) none (some ( "f".toList))) =
      .ok REAL_TYPE ∧
    visitExpr tableRecordArray
      (.Variable ( "arr".toList) (some (.Number (.intVal 1))) none) = .ok recordTyF :=
  ⟨single_step_access_resolution.1 ( "a".toList) ( "f".toList) 0 1 1 2 2 3 4,
   single_step_access_resolution.2.1 tableRecordArray ( "r".toList) ( "f".toList)
     0 ((tableRecordArray.get_entry 0).getD ⟨[], .CONSTANT, VOID_TYPE, 0, 0, 0, true, 0⟩
       ) (.mk [( "f".toList, REAL_TYPE, 0)] 1) REAL_TYPE 0 rfl rfl rfl rfl,
   single_step_access_resolution.2.2 tableRecordArray ( "arr".toList)
     1 ((tableRecordArray.get_entry 1).getD ⟨[], .CONSTANT, VOID_TYPE, 0, 0, 0, true, 0⟩
       ) (.mk INTEGER_TYPE recordTyF 1 10 1 10 none) (.Number (.intVal 1)) INTEGER_TYPE
     rfl rfl rfl rfl rfl⟩

/-- Anything the scanning loop's accumulator holds on exit is either what
it held on entry, or was recorded after consuming k+1 characters of the
remaining input: the accepted position is the scan start plus the accepted
lexeme's added length, and the accepted lexeme extends the entry lexeme by
exactly the consumed prefix. -/
theorem scanProbe_acc_cases (lx : Lexer) :
    ∀ (rem : Str) (state : String) (lexeme : Str) (i : Nat)
      (acc : Option (String × Str × Nat)) (st : String) (lex : Str) (p : Nat),
      (scanProbe lx rem state lexeme i acc).2 = some (st, lex, p) →
      acc = some (st, lex, p) ∨
        ∃ k, k < rem.length ∧ p = i + (k + 1) ∧ lex = lexeme ++ rem.take (k + 1) := by
  intro rem
  induction rem with
  | nil =>
    intro state lexeme i acc st lex p h
    simp only [scanProbe] at h
    exact .inl h
  | cons c rest ih =>
    intro state lexeme i acc st lex p h
    simp only [scanProbe] at h
    by_cases hct : lx.dfa.can_transition state c = true
    · rw [if_pos hct] at h
      rcases ih _ _ _ _ _ _ _ h with hacc | ⟨k, hk, hp, hlex⟩
      · by_cases hf : (lx.dfa.get_token_type (lx.dfa.step_state state c)).isSome = true
        · rw [if_pos hf] at hacc
          simp only [Option.some.injEq, Prod.mk.injEq] at hacc
          right
          refine ⟨0, by simp, ?_, ?_⟩
          · omega
          · rw [← hacc.2.1]
            simp
        · rw [if_neg hf] at hacc
          exact .inl hacc
      · right
        refine ⟨k + 1, by simpa using Nat.succ_lt_succ hk, by omega, ?_⟩
        rw [hlex, List.take_succ_cons, List.append_assoc]
        rfl
    · rw [if_neg hct] at h
      exact .inl h

/-- The scanning loop never moves the reader backwards and stops within
the remaining input. -/
theorem scanProbe_fst_bounds (lx : Lexer) :
    ∀ (rem : Str) (state : String) (lexeme : Str) (i : Nat)
      (acc : Option (String × Str × Nat)),
      i ≤ (scanProbe lx rem state lexeme i acc).1 ∧
      (scanProbe lx rem state lexeme i acc).1 ≤ i + rem.length := by
  intro rem
  induction rem with
  | nil =>
    intro state lexeme i acc
    simp [scanProbe]
  | cons c rest ih =>
    intro state lexeme i acc
    simp only [scanProbe]
    by_cases hct : lx.dfa.can_transition state c = true
    · rw [if_pos hct]
      have h := ih (lx.dfa.step_state state c) (lexeme ++ [c]) (i + 1)
        (if (lx.dfa.get_token_type (lx.dfa.step_state state c)).isSome = true
         then some (lx.dfa.step_state state c, lexeme ++ [c], i + 1) else acc)
      constructor
      · omega
      · have h2 := h.2
        simp only [List.length_cons]
        omega
    · rw [if_neg hct]
      simp

/-- The scanning outer loop always terminates within the fuel tokenize
gives it: each iteration strictly advances the reader index. -/
theorem scanOuter_isSome (lx : Lexer) (text : Str) :
    ∀ (fuel i : Nat), text.length + 1 ≤ fuel + i → 1 ≤ fuel →
      (scanOuter lx text fuel i).isSome = true := by
  intro fuel
  induction fuel with
  | zero =>
    intro i h h1
    exact absurd h1 (by omega)
  | succ f ih =>
    intro i h h1
    rw [scanOuter]
    by_cases hlt : i < text.length
    · rw [if_pos hlt]
      rcases hp : scanProbe lx (text.drop i) lx.dfa.start_state [] i none with ⟨endI, acc⟩
      cases acc with
      | some trip =>
        obtain ⟨st, lex, accPos⟩ := trip
        have hcase := scanProbe_acc_cases lx (text.drop i) lx.dfa.start_state [] i none
          st lex accPos (by rw [hp])
        rcases hcase with habs | ⟨k, hk, hpos, _⟩
        · exact absurd habs (by simp)
        have hnext : (if endI ≠ accPos then accPos else endI) = accPos := by
          split
          · rfl
          · omega
        dsimp only
        rw [hnext]
        have hrec := ih accPos (by omega) (by omega)
        cases hr : scanOuter lx text f accPos with
        | none => rw [hr] at hrec ; exact absurd hrec (by simp)
        | some pr =>
          obtain ⟨ts, ok⟩ := pr
          simp
      | none =>
        dsimp only
        cases hg : text.get? endI with
        | some c =>
          have hb := (scanProbe_fst_bounds lx (text.drop i) lx.dfa.start_state [] i none).1
          rw [hp] at hb
          have hb2 : i ≤ endI := by simpa using hb
          have hrec := ih (endI + 1) (by omega) (by omega)
          cases hr : scanOuter lx text f (endI + 1) with
          | none => rw [hr] at hrec ; exact absurd hrec (by simp)
          | some pr =>
            obtain ⟨ts, ok⟩ := pr
            simp
        | none =>
          simp
    · rw [if_neg hlt]
      simp

/-- C1: when the scan loop probed past the last accepting state (the
reader's stop index differs from the accepted position), tokenize commits
the accepted lexeme and un-consumes the trailing characters: the accepted
position equals the token start plus the accepted lexeme's length and is
in range, the (spec-modelled) Reader.set_position lands the reader exactly
there, and the outer loop continues scanning at that position — the next
token starts immediately after the committed lexeme.  Moreover tokenize
completes normally: the scanning loop never runs out of the fuel tokenize
supplies. -/
theorem tokenize_unconsumes_overshoot :
    (∀ (lx : Lexer) (text : Str) (fuel i endI : Nat) (st : String) (lex : Str)
       (accPos : Nat),
      i < text.length →
      scanProbe lx (text.drop i) lx.dfa.start_state [] i none = (endI, some (st, lex, accPos)) →
      endI ≠ accPos →
      accPos = i + lex.length ∧ accPos ≤ text.length ∧
      (∀ r : Reader, r.text = text → (r.set_position accPos).pos.index = accPos) ∧
      scanOuter lx text (fuel + 1) i =
        (match scanOuter lx text fuel accPos with
         | some (ts, ok) =>
             some ((⟨lx.classify st lex, lex, i, i + lex.length⟩ : Token) :: ts, ok)
         | none => none)) ∧
    (∀ (lx : Lexer) (text : Str), (scanOuter lx text (text.length + 1) 0).isSome = true) := by
  constructor
  · intro lx text fuel i endI st lex accPos hlt hp hne
    have hcase := scanProbe_acc_cases lx (text.drop i) lx.dfa.start_state [] i none
      st lex accPos (by rw [hp])
    rcases hcase with habs | ⟨k, hk, hpos, hlex⟩
    · exact absurd habs (by simp)
    have hdl : (text.drop i).length = text.length - i := List.length_drop i text
    have hlexlen : lex.length = k + 1 := by
      rw [hlex]
      simp only [List.nil_append, List.length_take]
      omega
    have h1 : accPos = i + lex.length := by omega
    have h2 : accPos ≤ text.length := by omega
    refine ⟨h1, h2, ?_, ?_⟩
    · intro r hr
      simp [Reader.set_position, hr, Nat.min_eq_left h2]
    · rw [scanOuter, if_pos hlt, hp]
      dsimp only
      rw [if_pos hne]
  · intro lx text
    exact scanOuter_isSome lx text (text.length + 1) 0 (by omega) (by omega)

/-- Witness for tokenize_unconsumes_overshoot: scanning `5.x` with the
model configuration probes through `5.` hunting a real literal, stops at
index 2 with accepted lexeme `5` and accepted position 1, and the loop
resumes at index 1. -/
theorem tokenize_unconsumes_overshoot_witness :
    1 = 0 + (['5'] : Str).length ∧ 1 ≤ ( "5.x".toList).length ∧
    (∀ r : Reader, r.text = "5.x".toList → (r.set_position 1).pos.index = 1) ∧
    scanOuter modelLexer ( "5.x".toList) (3 + 1) 0 =
      (match scanOuter modelLexer ( "5.x".toList) 3 1 with
       | some (ts, ok) =>
           some ((⟨modelLexer.classify "NUM" ['5'], ['5'], 0,
             0 + (['5'] : Str).length⟩ : Token) :: ts, ok)
       | none => none) :=
  tokenize_unconsumes_overshoot.1 modelLexer ( "5.x".toList) 3 0 2 "NUM" ['5'] 1
    (by decide) (by decide) (by decide)

/-- With a clean scan (the loop never dropped a trailing run at end of
input) and no UNKNOWN token, the scan tokens tile the source exactly:
concatenating their values reproduces the unread suffix. -/
theorem scanOuter_concat (lx : Lexer) (text : Str) :
    ∀ (fuel i : Nat) (ts : List Token),
      scanOuter lx text fuel i = some (ts, true) →
      (∀ t ∈ ts, t.type ≠ .UNKNOWN) →
      concatValues ts = text.drop i := by
  intro fuel
  induction fuel with
  | zero =>
    intro i ts h hu
    exact absurd h (by simp [scanOuter])
  | succ f ih =>
    intro i ts h hu
    rw [scanOuter] at h
    by_cases hlt : i < text.length
    · rw [if_pos hlt] at h
      rcases hp : scanProbe lx (text.drop i) lx.dfa.start_state [] i none with ⟨endI, acc⟩
      rw [hp] at h
      cases acc with
      | some trip =>
        obtain ⟨st, lex, accPos⟩ := trip
        dsimp only at h
        have hnext : (if endI ≠ accPos then accPos else endI) = accPos := by
          split
          · rfl
          · omega
        rw [hnext] at h
        cases hr : scanOuter lx text f accPos with
        | none =>
          rw [hr] at h
          exact absurd h (by simp)
        | some pr =>
          obtain ⟨ts', ok⟩ := pr
          rw [hr] at h
          simp only [Option.some.injEq, Prod.mk.injEq] at h
          obtain ⟨hts, hok⟩ := h
          subst hts
          have hcase := scanProbe_acc_cases lx (text.drop i) lx.dfa.start_state [] i none
            st lex accPos (by rw [hp])
          rcases hcase with habs | ⟨k, hk, hpos, hlex⟩
          · exact absurd habs (by simp)
          rw [concatValues_cons]
          rw [ih accPos ts' (by rw [hr, hok]) (fun t ht => hu t (List.mem_cons_of_mem _ ht))]
          show lex ++ text.drop accPos = text.drop i
          rw [hlex, hpos]
          simp only [List.nil_append]
          exact List.drop_take_append_drop text i (k + 1)
      | none =>
        dsimp only at h
        cases hg : text.get? endI with
        | some c =>
          rw [hg] at h
          cases hr : scanOuter lx text f (endI + 1) with
          | none =>
            rw [hr] at h
            exact absurd h (by simp)
          | some pr =>
            obtain ⟨ts', ok⟩ := pr
            rw [hr] at h
            simp only [Option.some.injEq, Prod.mk.injEq] at h
            obtain ⟨hts, hok⟩ := h
            exact absurd (show (⟨.UNKNOWN, [c], endI, endI + 1⟩ : Token).type = .UNKNOWN from rfl)
              (hu _ (hts ▸ List.mem_cons_self _ _))
        | none =>
          rw [hg] at h
          simp at h
    · rw [if_neg hlt] at h
      simp only [Option.some.injEq, Prod.mk.injEq] at h
      obtain ⟨hts, -⟩ := h
      subst hts
      rw [concatValues_nil, List.drop_eq_nil_of_le (by omega)]

/-- The dropped-tokens flag of the negative-number merge is sticky: once
true it stays true. -/
theorem mergeNegAux_gap_true :
    ∀ (fuel : Nat) (toks res : List Token), (mergeNegAux fuel toks res true).2 = true := by
  intro fuel
  induction fuel with
  | zero => intro toks res ; rfl
  | succ f ih =>
    intro toks res
    cases toks with
    | nil => rfl
    | cons t rest =>
      simp only [mergeNegAux, Bool.true_or]
      split
      · exact ih _ _
      · split
        · split
          · split
            · split
              · exact ih _ _
              · exact ih _ _
            · exact ih _ _
          · exact ih _ _
        · exact ih _ _

/-- When the negative-number merge performs no token-dropping merge, it
preserves the concatenation of token values: an adjacent unary merge glues
`-` directly onto the number's text. -/
theorem mergeNegAux_concat :
    ∀ (fuel : Nat) (toks res : List Token) (gap : Bool), toks.length < fuel →
      (mergeNegAux fuel toks res gap).2 = false →
      concatValues (mergeNegAux fuel toks res gap).1 =
        concatValues res.reverse ++ concatValues toks := by
  intro fuel
  induction fuel with
  | zero =>
    intro toks res gap hlen
    omega
  | succ f ih =>
    intro toks res gap hlen hflag
    cases toks with
    | nil => simp [mergeNegAux, concatValues_nil]
    | cons t rest =>
      have hcons : ∀ (x : Token) (res2 : List Token), concatValues ((x :: res2).reverse) =
          concatValues res2.reverse ++ x.value := by
        intro x res2
        rw [List.reverse_cons, concatValues_append, concatValues_cons, concatValues_nil,
          List.append_nil]
      simp only [mergeNegAux] at hflag ⊢
      by_cases hws : isWsComment t = true
      · rw [if_pos hws] at hflag ⊢
        rw [ih rest (t :: res) gap (by simpa using hlen) hflag, hcons,
          concatValues_cons, List.append_assoc]
      · rw [if_neg hws] at hflag ⊢
        by_cases hminus : t.type = .ARITHMETIC_OPERATOR ∧ t.value = "-".toList
        · rw [if_pos hminus] at hflag ⊢
          cases hA : rest.dropWhile isWsComment with
          | nil =>
            rw [hA] at hflag
            dsimp only at hflag ⊢
            rw [ih rest (t :: res) gap (by simpa using hlen) hflag, hcons,
              concatValues_cons, List.append_assoc]
          | cons tj rest3 =>
            rw [hA] at hflag
            dsimp only at hflag ⊢
            by_cases hnum : tj.type = .NUMBER
            · rw [if_pos hnum] at hflag ⊢
              by_cases hun : is_unary_context res = true
              · rw [if_pos hun] at hflag ⊢
                have hg' : (gap || decide (rest.takeWhile isWsComment ≠ [])) = false := by
                  by_contra hc
                  have hg2 : (gap || decide (rest.takeWhile isWsComment ≠ [])) = true := by
                    cases hx : (gap || decide (rest.takeWhile isWsComment ≠ [])) with
                    | true => rfl
                    | false => exact absurd hx hc
                  rw [hg2] at hflag
                  rw [mergeNegAux_gap_true] at hflag
                  exact absurd hflag (by simp)
                have htake : rest.takeWhile isWsComment = [] := by
                  rcases Bool.or_eq_false_iff.mp hg' with ⟨-, hd⟩
                  simpa using of_decide_eq_false hd
                have hrest : rest = tj :: rest3 := by
                  have hsplit := List.takeWhile_append_dropWhile isWsComment rest
                  rw [htake, hA] at hsplit
                  simpa using hsplit.symm
                have hlen3 : rest3.length < f := by
                  have : rest.length = rest3.length + 1 := by rw [hrest] ; rfl
                  simp only [List.length_cons] at hlen
                  omega
                rw [hg'] at hflag ⊢
                rw [ih rest3 (⟨.NUMBER, '-' :: tj.value, t.start, tj.«end»⟩ :: res) false
                  hlen3 hflag, hcons, hrest]
                rw [concatValues_cons, concatValues_cons]
                show concatValues res.reverse ++
                    (⟨.NUMBER, '-' :: tj.value, t.start, tj.«end»⟩ : Token).value ++
                    concatValues rest3 =
                  concatValues res.reverse ++ (t.value ++ (tj.value ++ concatValues rest3))
                rw [hminus.2]
                simp [List.append_assoc]
              · rw [if_neg hun] at hflag ⊢
                rw [ih rest (t :: res) gap (by simpa using hlen) hflag, hcons,
                  concatValues_cons, List.append_assoc]
            · rw [if_neg hnum] at hflag ⊢
              rw [ih rest (t :: res) gap (by simpa using hlen) hflag, hcons,
                concatValues_cons, List.append_assoc]
        · rw [if_neg hminus] at hflag ⊢
          rw [ih rest (t :: res) gap (by simpa using hlen) hflag, hcons,
            concatValues_cons, List.append_assoc]

/-- fix_char_literals only retags string literals; values are untouched,
so concatenation is preserved. -/
theorem fix_char_literals_concat (ts : List Token) :
    concatValues (fix_char_literals ts) = concatValues ts := by
  induction ts with
  | nil => rfl
  | cons t rest ih =>
    simp only [fix_char_literals, List.map_cons, concatValues_cons] at ih ⊢
    split <;> simp [ih, concatValues_cons]

/-- C3 (amended): concatenating the values of the tokens Lexer.tokenize
returns reproduces the source exactly, provided that — beyond containing
no UNKNOWN token — the scan ended cleanly (it never discarded a run
consumed to end of input without an accepting state) and no negative-number
merge dropped whitespace/comment tokens standing between the `-` and its
number.  The dropped tokens in such a merge are lost from the
concatenation, which is what breaks the claim as stated. -/
theorem roundtrip_concat_amended :
    ∀ (lx : Lexer) (text : Str) (ts : List Token),
      scanOuter lx text (text.length + 1) 0 = some (ts, true) →
      (∀ t ∈ ts, t.type ≠ .UNKNOWN) →
      mergeDroppedTokens ts = false →
      concatValues (lx.tokenize text) = text := by
  intro lx text ts h hu hg
  have hscan : scanTokens lx text = ts := by
    unfold scanTokens
    rw [h]
    rfl
  unfold mergeDroppedTokens at hg
  have hc := scanOuter_concat lx text (text.length + 1) 0 ts h hu
  rw [List.drop_zero] at hc
  unfold Lexer.tokenize
  rw [fix_char_literals_concat, hscan]
  unfold merge_negative_numbers
  rw [mergeNegAux_concat (ts.length + 1) ts [] false (by omega) hg]
  simpa using hc

/-- Counterexample to C3 as stated: tokenizing `- 5` with the model
configuration yields no UNKNOWN token, yet the negative-number merge
swallows the whitespace between the unary `-` and the `5`, so the
concatenation of token values is `-5`, not the original text. -/
theorem roundtrip_fails_on_merged_gap :
    (∀ t ∈ Lexer.tokenize modelLexer ( "- 5".toList), t.type ≠ .UNKNOWN) ∧
    concatValues (Lexer.tokenize modelLexer ( "- 5".toList)) ≠ "- 5".toList := by
  constructor
  · decide
  · decide

/-- Witness for roundtrip_concat_amended: `1 2` scans cleanly, has no
UNKNOWN and triggers no merge, and round-trips exactly. -/
theorem roundtrip_concat_amended_witness :
    concatValues (Lexer.tokenize modelLexer ( "1 2".toList)) = "1 2".toList :=
  roundtrip_concat_amended modelLexer ( "1 2".toList)
    (scanTokens modelLexer ( "1 2".toList)) (by decide) (by decide) (by decide)

/-- Every token the scanning phase emits satisfies end = start + |value|
literally: committed tokens are built with exactly that end, UNKNOWN
tokens are one character wide. -/
theorem scanOuter_spans (lx : Lexer) (text : Str) :
    ∀ (fuel i : Nat) (ts : List Token) (ok : Bool),
      scanOuter lx text fuel i = some (ts, ok) →
      ∀ t ∈ ts, t.«end» = t.start + t.value.length := by
  intro fuel
  induction fuel with
  | zero =>
    intro i ts ok h
    exact absurd h (by simp [scanOuter])
  | succ f ih =>
    intro i ts ok h
    rw [scanOuter] at h
    by_cases hlt : i < text.length
    · rw [if_pos hlt] at h
      rcases hp : scanProbe lx (text.drop i) lx.dfa.start_state [] i none with ⟨endI, acc⟩
      rw [hp] at h
      cases acc with
      | some trip =>
        obtain ⟨st, lex, accPos⟩ := trip
        dsimp only at h
        cases hr : scanOuter lx text f (if endI ≠ accPos then accPos else endI) with
        | none =>
          rw [hr] at h
          exact absurd h (by simp)
        | some pr =>
          obtain ⟨ts', ok'⟩ := pr
          rw [hr] at h
          simp only [Option.some.injEq, Prod.mk.injEq] at h
          obtain ⟨hts, -⟩ := h
          subst hts
          intro t ht
          rcases List.mem_cons.mp ht with rfl | ht'
          · simp
          · exact ih _ _ _ hr t ht'
      | none =>
        dsimp only at h
        cases hg : text.get? endI with
        | some c =>
          rw [hg] at h
          cases hr : scanOuter lx text f (endI + 1) with
          | none =>
            rw [hr] at h
            exact absurd h (by simp)
          | some pr =>
            obtain ⟨ts', ok'⟩ := pr
            rw [hr] at h
            simp only [Option.some.injEq, Prod.mk.injEq] at h
            obtain ⟨hts, -⟩ := h
            subst hts
            intro t ht
            rcases List.mem_cons.mp ht with rfl | ht'
            · simp
            · exact ih _ _ _ hr t ht'
        | none =>
          rw [hg] at h
          simp only [Option.some.injEq, Prod.mk.injEq] at h
          obtain ⟨hts, -⟩ := h
          subst hts
          intro t ht
          exact absurd ht (List.not_mem_nil t)
    · rw [if_neg hlt] at h
      simp only [Option.some.injEq, Prod.mk.injEq] at h
      obtain ⟨hts, -⟩ := h
      subst hts
      intro t ht
      exact absurd ht (List.not_mem_nil t)

/-- Every token merge_negative_numbers emits is either an input token or a
merged negative number built from a `-` token and a NUMBER token of the
input, spanning from the minus's start to the number's end. -/
theorem mergeNegAux_mem :
    ∀ (fuel : Nat) (toks res : List Token) (gap : Bool) (t : Token),
      t ∈ (mergeNegAux fuel toks res gap).1 →
      t ∈ res ∨ t ∈ toks ∨ ∃ tm tn, tm ∈ toks ∧ tn ∈ toks ∧
        tm.type = .ARITHMETIC_OPERATOR ∧ tm.value = "-".toList ∧ tn.type = .NUMBER ∧
        t = ⟨.NUMBER, '-' :: tn.value, tm.start, tn.«end»⟩ := by
  intro fuel
  induction fuel with
  | zero =>
    intro toks res gap t ht
    simp only [mergeNegAux] at ht
    rcases List.mem_append.mp ht with h | h
    · exact .inl (List.mem_reverse.mp h)
    · exact .inr (.inl h)
  | succ f ih =>
    intro toks res gap t ht
    cases toks with
    | nil =>
      simp only [mergeNegAux] at ht
      exact .inl (List.mem_reverse.mp ht)
    | cons t0 rest =>
      have hstep : ∀ gap', t ∈ (mergeNegAux f rest (t0 :: res) gap').1 →
          t ∈ res ∨ t ∈ t0 :: rest ∨ ∃ tm tn, tm ∈ t0 :: rest ∧ tn ∈ t0 :: rest ∧
            tm.type = .ARITHMETIC_OPERATOR ∧ tm.value = "-".toList ∧ tn.type = .NUMBER ∧
            t = ⟨.NUMBER, '-' :: tn.value, tm.start, tn.«end»⟩ := by
        intro gap' h'
        rcases ih rest (t0 :: res) gap' t h' with h1 | h2 | ⟨tm, tn, h3, h4, h5, h6, h7, h8⟩
        · rcases List.mem_cons.mp h1 with rfl | hin
          · exact .inr (.inl (List.mem_cons_self _ _))
          · exact .inl hin
        · exact .inr (.inl (List.mem_cons_of_mem _ h2))
        · exact .inr (.inr ⟨tm, tn, List.mem_cons_of_mem _ h3, List.mem_cons_of_mem _ h4,
            h5, h6, h7, h8⟩)
      simp only [mergeNegAux] at ht
      by_cases hws : isWsComment t0 = true
      · rw [if_pos hws] at ht
        exact hstep gap ht
      · rw [if_neg hws] at ht
        by_cases hminus : t0.type = .ARITHMETIC_OPERATOR ∧ t0.value = "-".toList
        · rw [if_pos hminus] at ht
          cases hA : rest.dropWhile isWsComment with
          | nil =>
            rw [hA] at ht
            dsimp only at ht
            exact hstep gap ht
          | cons tj rest3 =>
            rw [hA] at ht
            dsimp only at ht
            by_cases hnum : tj.type = .NUMBER
            · rw [if_pos hnum] at ht
              by_cases hun : is_unary_context res = true
              · rw [if_pos hun] at ht
                have htj : tj ∈ t0 :: rest := by
                  have hmem : tj ∈ rest.dropWhile isWsComment := by
                    rw [hA]
                    exact List.mem_cons_self _ _
                  exact List.mem_cons_of_mem _ ((List.dropWhile_sublist isWsComment).subset hmem)
                have hr3 : ∀ x, x ∈ rest3 → x ∈ t0 :: rest := by
                  intro x hx
                  have hmem : x ∈ rest.dropWhile isWsComment := by
                    rw [hA]
                    exact List.mem_cons_of_mem _ hx
                  exact List.mem_cons_of_mem _ ((List.dropWhile_sublist isWsComment).subset hmem)
                rcases ih rest3 (⟨.NUMBER, '-' :: tj.value, t0.start, tj.«end»⟩ :: res) _ t ht
                  with h1 | h2 | ⟨tm, tn, h3, h4, h5, h6, h7, h8⟩
                · rcases List.mem_cons.mp h1 with rfl | hin
                  · exact .inr (.inr ⟨t0, tj, List.mem_cons_self _ _, htj,
                      hminus.1, hminus.2, hnum, rfl⟩)
                  · exact .inl hin
                · exact .inr (.inl (hr3 t h2))
                · exact .inr (.inr ⟨tm, tn, hr3 tm h3, hr3 tn h4, h5, h6, h7, h8⟩)
              · rw [if_neg hun] at ht
                exact hstep gap ht
            · rw [if_neg hnum] at ht
              exact hstep gap ht
        · rw [if_neg hminus] at ht
          exact hstep gap ht

/-- fix_char_literals preserves value, start and end of every token. -/
theorem fix_char_literals_mem (ts : List Token) (t : Token)
    (ht : t ∈ fix_char_literals ts) :
    ∃ t0 ∈ ts, t.value = t0.value ∧ t.start = t0.start ∧ t.«end» = t0.«end» := by
  simp only [fix_char_literals, List.mem_map] at ht
  obtain ⟨t0, h0, heq⟩ := ht
  refine ⟨t0, h0, ?_⟩
  subst heq
  split <;> simp

/-- Every token merge_hyphenated_keywords emits is either an input token
or a merged keyword spanning from the first identifier's start to the
second identifier's end. -/
theorem merge_hyphenated_mem :
    ∀ (n : Nat) (ts : List Token), ts.length ≤ n → ∀ t ∈ merge_hyphenated_keywords ts,
      t ∈ ts ∨ ∃ t1 t2 t3, t1 ∈ ts ∧ t2 ∈ ts ∧ t3 ∈ ts ∧
        t2.type = .ARITHMETIC_OPERATOR ∧ t2.value = "-".toList ∧
        t = ⟨.KEYWORD, t1.value ++ '-' :: t3.value, t1.start, t3.«end»⟩ := by
  intro n
  induction n with
  | zero =>
    intro ts hlen t ht
    have : ts = [] := List.length_eq_zero.mp (Nat.le_zero.mp hlen)
    subst this
    exact .inl ht
  | succ m ih =>
    intro ts hlen t ht
    match ts with
    | [] => exact .inl ht
    | [t1] => exact .inl ht
    | [t1, t2] => exact .inl ht
    | t1 :: t2 :: t3 :: rest =>
      rw [merge_hyphenated_keywords] at ht
      by_cases hc : (t1.type = .IDENTIFIER ∨ t1.type = .KEYWORD) ∧
          t2.type = .ARITHMETIC_OPERATOR ∧ t2.value = "-".toList ∧
          (t3.type = .IDENTIFIER ∨ t3.type = .KEYWORD) ∧
          lower (t1.value ++ '-' :: t3.value) ∈ HYPHENATED_KEYWORDS
      · rw [if_pos hc] at ht
        rcases List.mem_cons.mp ht with rfl | ht'
        · exact .inr ⟨t1, t2, t3, by simp, by simp, by simp, hc.2.1, hc.2.2.1, rfl⟩
        · rcases ih rest (by simp at hlen ; omega) t ht' with h | ⟨u1, u2, u3, m1, m2, m3, p1, p2, p3⟩
          · exact .inl (by simp [h])
          · exact .inr ⟨u1, u2, u3, by simp [m1], by simp [m2], by simp [m3], p1, p2, p3⟩
      · rw [if_neg hc] at ht
        rcases List.mem_cons.mp ht with rfl | ht'
        · exact .inl (List.mem_cons_self _ _)
        · rcases ih (t2 :: t3 :: rest) (by simp at hlen ⊢ ; omega) t ht'
            with h | ⟨u1, u2, u3, m1, m2, m3, p1, p2, p3⟩
          · exact .inl (List.mem_cons_of_mem _ h)
          · exact .inr ⟨u1, u2, u3, List.mem_cons_of_mem _ m1, List.mem_cons_of_mem _ m2,
              List.mem_cons_of_mem _ m3, p1, p2, p3⟩

/-- C8: every token Lexer.tokenize produces satisfies
end = start + length(value), except merged negative numbers, whose value
is `-` glued onto a scanned NUMBER token's text and whose span runs from
the merged minus token's start to that number token's end (the number
itself satisfying the exact equation); likewise every token of the
(separate) hyphenated-keyword merge is an input token or a merged keyword
spanning its three source tokens. -/
theorem token_span_invariant :
    (∀ (lx : Lexer) (text : Str) (t : Token), t ∈ Lexer.tokenize lx text →
      t.«end» = t.start + t.value.length ∨
      ∃ tm tn, tm ∈ scanTokens lx text ∧ tn ∈ scanTokens lx text ∧
        tm.type = .ARITHMETIC_OPERATOR ∧ tm.value = "-".toList ∧ tn.type = .NUMBER ∧
        t.value = '-' :: tn.value ∧ t.start = tm.start ∧ t.«end» = tn.«end» ∧
        tn.«end» = tn.start + tn.value.length) ∧
    (∀ (ts : List Token) (t : Token), t ∈ merge_hyphenated_keywords ts →
      t ∈ ts ∨ ∃ t1 t2 t3, t1 ∈ ts ∧ t2 ∈ ts ∧ t3 ∈ ts ∧
        t2.type = .ARITHMETIC_OPERATOR ∧ t2.value = "-".toList ∧
        t = ⟨.KEYWORD, t1.value ++ '-' :: t3.value, t1.start, t3.«end»⟩) := by
  constructor
  · intro lx text t ht
    have hsome := scanOuter_isSome lx text (text.length + 1) 0 (by omega) (by omega)
    cases hout : scanOuter lx text (text.length + 1) 0 with
    | none =>
      rw [hout] at hsome
      exact absurd hsome (by simp)
    | some pr =>
      obtain ⟨ts0, ok0⟩ := pr
      have hscan : scanTokens lx text = ts0 := by
        unfold scanTokens
        rw [hout]
        rfl
      have hspans := scanOuter_spans lx text (text.length + 1) 0 ts0 ok0 hout
      unfold Lexer.tokenize at ht
      obtain ⟨t1, hmem1, hv, hs, he⟩ := fix_char_literals_mem _ _ ht
      unfold merge_negative_numbers at hmem1
      rcases mergeNegAux_mem _ _ _ _ _ hmem1 with habs | hin | ⟨tm, tn, h3, h4, h5, h6, h7, h8⟩
      · exact absurd habs (List.not_mem_nil t1)
      · left
        rw [hv, hs, he]
        exact hspans t1 (hscan ▸ hin)
      · right
        subst h8
        refine ⟨tm, tn, h3, h4, h5, h6, h7, by simpa using hv, by simpa using hs,
          by simpa using he, hspans tn (hscan ▸ h4)⟩
  · intro ts t ht
    exact merge_hyphenated_mem ts.length ts le_rfl t ht

/-- Witness for token_span_invariant: the NUMBER token of `1 2`'s
tokenization satisfies the exact span equation (left disjunct), and the
hyphenated merge of a concrete `turun - ke` stream yields the spanning
merged keyword. -/
theorem token_span_invariant_witness :
    ((⟨.NUMBER, "1".toList, 0, 1⟩ : Token).«end» =
        (⟨.NUMBER, "1".toList, 0, 1⟩ : Token).start +
          (⟨.NUMBER, "1".toList, 0, 1⟩ : Token).value.length ∨
      ∃ tm tn, tm ∈ scanTokens modelLexer ( "1 2".toList) ∧
        tn ∈ scanTokens modelLexer ( "1 2".toList) ∧
        tm.type = .ARITHMETIC_OPERATOR ∧ tm.value = "-".toList ∧ tn.type = .NUMBER ∧
        (⟨.NUMBER, "1".toList, 0, 1⟩ : Token).value = '-' :: tn.value ∧
        (⟨.NUMBER, "1".toList, 0, 1⟩ : Token).start = tm.start ∧
        (⟨.NUMBER, "1".toList, 0, 1⟩ : Token).«end» = tn.«end» ∧
        tn.«end» = tn.start + tn.value.length) ∧
    ((⟨.KEYWORD, "turun-ke".toList, 0, 8⟩ : Token) ∈
        [(⟨.IDENTIFIER, "turun".toList, 0, 5⟩ : Token),
         ⟨.ARITHMETIC_OPERATOR, "-".toList, 5, 6⟩,
         ⟨.IDENTIFIER, "ke".toList, 6, 8⟩] ∨
      ∃ t1 t2 t3,
        t1 ∈ [(⟨.IDENTIFIER, "turun".toList, 0, 5⟩ : Token),
          ⟨.ARITHMETIC_OPERATOR, "-".toList, 5, 6⟩, ⟨.IDENTIFIER, "ke".toList, 6, 8⟩] ∧
        t2 ∈ [(⟨.IDENTIFIER, "turun".toList, 0, 5⟩ : Token),
          ⟨.ARITHMETIC_OPERATOR, "-".toList, 5, 6⟩, ⟨.IDENTIFIER, "ke".toList, 6, 8⟩] ∧
        t3 ∈ [(⟨.IDENTIFIER, "turun".toList, 0, 5⟩ : Token),
          ⟨.ARITHMETIC_OPERATOR, "-".toList, 5, 6⟩, ⟨.IDENTIFIER, "ke".toList, 6, 8⟩] ∧
        t2.type = .ARITHMETIC_OPERATOR ∧ t2.value = "-".toList ∧
        (⟨.KEYWORD, "turun-ke".toList, 0, 8⟩ : Token) =
          ⟨.KEYWORD, t1.value ++ '-' :: t3.value, t1.start, t3.«end»⟩) :=
  ⟨token_span_invariant.1 modelLexer ( "1 2".toList) ⟨.NUMBER, "1".toList, 0, 1⟩ (by decide),
   token_span_invariant.2
     [⟨.IDENTIFIER, "turun".toList, 0, 5⟩, ⟨.ARITHMETIC_OPERATOR, "-".toList, 5, 6⟩,
      ⟨.IDENTIFIER, "ke".toList, 6, 8⟩]
     ⟨.KEYWORD, "turun-ke".toList, 0, 8⟩ (by decide)⟩

end PascalS
